import Mathlib

/-!
Verification of the collab-edit backend (src/backend) against its
natural-language specification.

The development shallowly embeds the parts of `backend/main.py`,
`backend/models.py` and `backend/db.py` that the claims are about:

* the version/change-log store (`NoteVersion` rows, `_parse_version_delta`,
  `_extract_yjs_updates`),
* the HTTP version endpoints (`list_note_versions`,
  `get_note_version_snapshot`, `restore_note_version`),
* the Socket.IO realtime handlers (`join_note`, `yjs_update`, `disconnect`)
  together with the in-process registries (`active_users`, `user_emails`,
  `sid_to_note`, `sid_to_user`) and socket.io room membership.

Machine timestamps are modelled as `Nat`; the database session is modelled
as explicit state passing; queries on the `note_versions` table are modelled
as list filtering plus a stable sort by timestamp.
-/

namespace CollabEdit

/-- Json models a Python value decoded from JSON text (the result of
`json.loads`): `null`/`bool`/`num`/`str` are scalars, `arr` a list and `obj`
a dict given as its key/value pairs in insertion order.  Numbers are
modelled as integers; no code path relevant to the claims produces or
inspects fractional numbers. -/
inductive Json where
  | null
  | bool (b : Bool)
  | num (n : Int)
  | str (s : String)
  | arr (elems : List Json)
  | obj (fields : List (String × Json))

/-- Python truthiness (`bool(x)`) of a decoded JSON value: `None`, `False`,
`0`, `""`, `[]` and `\x7b\x7d` are falsy, everything else truthy. -/
def Json.truthy : Json → Bool
  | .null => false
  | .bool b => b
  | .num n => n != 0
  | .str s => s != ""
  | .arr l => !l.isEmpty
  | .obj l => !l.isEmpty

mutual

/-- Structural equality of decoded JSON values, modelling Python `==` on the
results of `json.loads`. -/
def Json.beq : Json → Json → Bool := fun a b =>
  match a, b with
  | .null, .null => true
  | .bool x, .bool y => x == y
  | .num x, .num y => x == y
  | .str x, .str y => x == y
  | .arr xs, .arr ys => Json.beqList xs ys
  | .obj xs, .obj ys => Json.beqFields xs ys
  | _, _ => false

/-- Elementwise equality of JSON arrays. -/
def Json.beqList : List Json → List Json → Bool := fun a b =>
  match a, b with
  | [], [] => true
  | x :: xs, y :: ys => Json.beq x y && Json.beqList xs ys
  | _, _ => false

/-- Pairwise equality of JSON object fields (keys in insertion order). -/
def Json.beqFields : List (String × Json) → List (String × Json) → Bool := fun a b =>
  match a, b with
  | [], [] => true
  | (k, v) :: xs, (k2, v2) :: ys => k == k2 && Json.beq v v2 && Json.beqFields xs ys
  | _, _ => false

end

mutual

/-- Python `repr()` of a decoded JSON value, used by `str()` on containers.
String quoting is modelled as plain single quotes without escapes; no code
path relevant to the claims renders a container. -/
def pyRepr : Json → String
  | .null => "None"
  | .bool b => if b then "True" else "False"
  | .num n => toString n
  | .str s => "\x27" ++ s ++ "\x27"
  | .arr l => "[" ++ pyReprList l ++ "]"
  | .obj l => "\x7b" ++ pyReprFields l ++ "\x7d"

/-- Comma-separated reprs of JSON array elements. -/
def pyReprList : List Json → String
  | [] => ""
  | [x] => pyRepr x
  | x :: xs => pyRepr x ++ ", " ++ pyReprList xs

/-- Comma-separated reprs of JSON object fields. -/
def pyReprFields : List (String × Json) → String
  | [] => ""
  | [(k, v)] => "\x27" ++ k ++ "\x27: " ++ pyRepr v
  | (k, v) :: xs => "\x27" ++ k ++ "\x27: " ++ pyRepr v ++ ", " ++ pyReprFields xs

end

/-- Python `str()` of a decoded JSON value, as in `str(payload["update"])`
(main.py line 332) and f-string interpolation.  On a string it is the
identity; on other values it falls back to the repr rendering. -/
def pyStr : Json → String
  | .str s => s
  | j => pyRepr j

/-- Python `d.get(k)` on a decoded JSON dict: the value of the first binding
of `k`, if any. -/
def dGet (fields : List (String × Json)) (k : String) : Option Json :=
  (fields.find? (fun p => decide (p.1 = k))).map (fun p => p.2)

/-- Python `k in d` on a decoded JSON dict. -/
def hasKey (fields : List (String × Json)) (k : String) : Bool :=
  (fields.find? (fun p => decide (p.1 = k))).isSome

/-- Truthiness of `d.get(k)`: a missing key (Python `None`) is falsy. -/
def optTruthy : Option Json → Bool
  | none => false
  | some j => j.truthy

/-- Python `a or dflt` for an optional string field (pydantic
`Optional[str]`): the left operand if it is a non-empty string, otherwise
the default.  `None` and `""` are both falsy. -/
def pyOrDefault (v : Option String) (dflt : String) : String :=
  match v with
  | some s => if s = "" then dflt else s
  | none => dflt

/-- DeltaText models the text stored in the `delta` column of
`note_versions` (db.py line 39) by its JSON-parse outcome: `json j` stands
for text that parses to the value `j`, `invalid s` for the raw text `s`
when it does not parse as JSON.  Rows written by this backend always store
`json.dumps` output, whose canonical formatting makes byte equality of the
stored text coincide with structural equality of the parse outcome. -/
inductive DeltaText where
  | json (j : Json)
  | invalid (s : String)

/-- Equality of stored delta text, modelling Python `==` on the `delta`
column (main.py line 622). -/
def DeltaText.beq : DeltaText → DeltaText → Bool
  | .json a, .json b => Json.beq a b
  | .invalid a, .invalid b => a == b
  | _, _ => false

/-- NoteRow embeds the `Note` ORM model (db.py lines 23-30).  The `content`
column is a text column holding JSON or arbitrary text, modelled by its
parse outcome like `delta`. -/
structure NoteRow where
  id : String
  title : String
  content : DeltaText
  created_at : Nat
  updated_at : Nat

/-- NoteVersionRow embeds the `NoteVersion` ORM model (db.py lines 32-40):
one append-only change record. -/
structure NoteVersionRow where
  id : String
  note_id : String
  user_id : String
  delta : DeltaText
  timestamp : Nat

/-- Db is the persistent store: the `notes` and `note_versions` tables,
each in row-insertion order. -/
structure Db where
  notes : List NoteRow
  versions : List NoteVersionRow

/-- Embeds `_parse_version_delta` (main.py lines 299-306): the stored delta
text parsed as JSON if that yields a dict, otherwise the empty dict. -/
def parse_version_delta : DeltaText → List (String × Json)
  | .json (.obj fields) => fields
  | _ => []

/-- Embeds Python `payload.get(k) == s`: equality of a possibly-missing
decoded JSON value against a string literal (true only for that exact
string). -/
def strEqJson (o : Option Json) (s : String) : Bool :=
  match o with
  | some (.str t) => decide (t = s)
  | _ => false

/-- The guard of `_extract_yjs_updates` (main.py line 331):
`payload.get("kind") == "yjs_update" and payload.get("update")`. -/
def isYjsTruthy (v : NoteVersionRow) : Bool :=
  let payload := parse_version_delta v.delta
  strEqJson (dGet payload "kind") "yjs_update" && optTruthy (dGet payload "update")

/-- Kind test alone: `payload.get("kind") == "yjs_update"`, with no
condition on the `update` field. -/
def isYjsKind (v : NoteVersionRow) : Bool :=
  strEqJson (dGet (parse_version_delta v.delta) "kind") "yjs_update"

/-- The appended element of `_extract_yjs_updates` (main.py line 332):
`str(payload["update"])` (the guard ensures the key is present). -/
def yjsPayloadStr (v : NoteVersionRow) : String :=
  pyStr ((dGet (parse_version_delta v.delta) "update").getD .null)

/-- Per-record contribution of `_extract_yjs_updates`: the rendered payload
when the guard holds, nothing otherwise. -/
def yjsPayload? (v : NoteVersionRow) : Option String :=
  if isYjsTruthy v then some (yjsPayloadStr v) else none

/-- Embeds `_extract_yjs_updates` (main.py lines 327-333). -/
def extract_yjs_updates (versions : List NoteVersionRow) : List String :=
  versions.filterMap yjsPayload?

/-- Embeds `db.query(Note).filter(Note.id == note_id).first()`. -/
def findNote (db : Db) (note_id : String) : Option NoteRow :=
  db.notes.find? (fun n => decide (n.id = note_id))

/-- Embeds the version lookup of `_get_note_version_or_404` (main.py lines
316-324). -/
def findVersion (db : Db) (note_id version_id : String) : Option NoteVersionRow :=
  db.versions.find? (fun v => decide (v.note_id = note_id ∧ v.id = version_id))

/-- Embeds `db.query(NoteVersion).filter(NoteVersion.note_id == note_id)`. -/
def versionsOf (db : Db) (note_id : String) : List NoteVersionRow :=
  db.versions.filter (fun v => decide (v.note_id = note_id))

/-- Timestamp order on change records, the order used by every
`order_by(NoteVersion.timestamp ...)` query. -/
def tsLE (a b : NoteVersionRow) : Prop := a.timestamp ≤ b.timestamp

instance : DecidableRel tsLE := fun a b => inferInstanceAs (Decidable (a.timestamp ≤ b.timestamp))

instance : IsTotal NoteVersionRow tsLE := ⟨fun a b => Nat.le_total a.timestamp b.timestamp⟩

instance : IsTrans NoteVersionRow tsLE := ⟨fun _ _ _ h h2 => Nat.le_trans h h2⟩

/-- Embeds `order_by(NoteVersion.timestamp.asc())`: a stable sort by
timestamp, ties kept in insertion order. -/
def sortAsc (l : List NoteVersionRow) : List NoteVersionRow :=
  List.insertionSort tsLE l

/-- Embeds `order_by(NoteVersion.timestamp.desc())`: the ascending order
reversed (SQL leaves tie order unspecified; this fixes one order). -/
def sortDesc (l : List NoteVersionRow) : List NoteVersionRow :=
  (sortAsc l).reverse

/-- Embeds the `.order_by(NoteVersion.timestamp.desc()).first()` query of
the `yjs_update` handler (main.py lines 614-619): the log tail. -/
def lastVersionDesc (db : Db) (note_id : String) : Option NoteVersionRow :=
  (sortDesc (versionsOf db note_id)).head?

/-- NoteVersionListItem embeds the pydantic response schema of the same
name (models.py lines 57-63).  The schema declares exactly these five
fields; in particular it declares no `user_name` field. -/
structure NoteVersionListItem where
  id : String
  note_id : String
  user_id : String
  kind : String
  timestamp : Nat

/-- Embeds `str(payload.get(k) or dflt)`: the rendered field value when it
is truthy, the default otherwise. -/
def strFieldOr (payload : List (String × Json)) (k dflt : String) : String :=
  match dGet payload k with
  | some j => if j.truthy then pyStr j else dflt
  | none => dflt

/-- Embeds the `user_name` expression computed by `list_note_versions`
(main.py line 365): `str(payload.get("user_name") or version.user_id)`. -/
def computedUserName (v : NoteVersionRow) : String :=
  strFieldOr (parse_version_delta v.delta) "user_name" v.user_id

/-- Embeds the `NoteVersionListItem(...)` construction of
`list_note_versions` (main.py lines 361-368).  The handler also passes
`user_name=str(payload.get("user_name") or version.user_id)`
(see `computedUserName`), but the schema declares no such field and
pydantic silently ignores unknown constructor arguments, so the value is
dropped. -/
def mkVersionListItem (v : NoteVersionRow) : NoteVersionListItem :=
  { id := v.id
    note_id := v.note_id
    user_id := v.user_id
    kind := strFieldOr (parse_version_delta v.delta) "kind" "unknown"
    timestamp := v.timestamp }

/-- Serialization of a list item through `response_model`: the JSON object
FastAPI returns for it, holding exactly the declared schema fields. -/
def itemJson (it : NoteVersionListItem) : Json :=
  .obj [("id", .str it.id), ("note_id", .str it.note_id),
        ("user_id", .str it.user_id), ("kind", .str it.kind),
        ("timestamp", .num (Int.ofNat it.timestamp))]

/-- Embeds `list_note_versions` (main.py lines 343-370): 404 (`none`) when
the note does not exist, otherwise the note's versions newest first,
limited to `max(1, min(limit, 500))` items. -/
def list_note_versions (db : Db) (note_id : String) (limit : Int) :
    Option (List NoteVersionListItem) :=
  match findNote db note_id with
  | none => none
  | some _ =>
    let safe_limit := max 1 (min limit 500)
    some (((sortDesc (versionsOf db note_id)).take safe_limit.toNat).map mkVersionListItem)

/-- NoteVersionSnapshotResponse embeds the pydantic schema of the same name
(models.py lines 66-71). -/
structure NoteVersionSnapshotResponse where
  note_id : String
  version_id : String
  version_timestamp : Nat
  yjs_updates : List String

/-- Embeds `get_note_version_snapshot` (main.py lines 388-424): 404
(`none`) when the note or the target version does not exist, otherwise the
Yjs payloads extracted from all of the note's records with timestamp at
most the target's, in ascending timestamp order.  The document row itself
is only checked for existence; no field of it (in particular not
`updated_at`) contributes to the result. -/
def get_note_version_snapshot (db : Db) (note_id version_id : String) :
    Option NoteVersionSnapshotResponse :=
  match findNote db note_id, findVersion db note_id version_id with
  | some _, some target =>
    let prior :=
      sortAsc ((versionsOf db note_id).filter (fun v => v.timestamp ≤ target.timestamp))
    some { note_id := note_id
           version_id := target.id
           version_timestamp := target.timestamp
           yjs_updates := extract_yjs_updates prior }
  | _, _ => none

/-- NoteRestoreResponse embeds the pydantic schema of the same name
(models.py lines 74-78). -/
structure NoteRestoreResponse where
  note_id : String
  restored_from_version_id : String
  restored_at : Nat

/-- Modelled from the spec: the request body schema `NoteRestoreRequest` is
imported by main.py but its declaration is not in the provided models.py;
per spec section 6 the body is `\x7buser_id?, user_name?\x7d`, two optional
string fields. -/
structure NoteRestoreRequest where
  user_id : Option String
  user_name : Option String

/-- Embeds `restore_note_version` (main.py lines 434-478): 404 (`none`)
when the note or version does not exist and nothing is appended; otherwise
exactly one `restore` change record is appended, the note's `updated_at`
is set to the restore time, and the response carries the note id, the
version id restored from and the restore time.  `restored_at` stands for
`datetime.utcnow()` and `fresh_id` for the generated row id. -/
def restore_note_version (db : Db) (note_id version_id : String)
    (restore_data : NoteRestoreRequest) (restored_at : Nat) (fresh_id : String) :
    Option (Db × NoteRestoreResponse) :=
  match findNote db note_id, findVersion db note_id version_id with
  | some _, some _ =>
    let restore_user_id := pyOrDefault restore_data.user_id "system"
    let restore_user_name := pyOrDefault restore_data.user_name restore_user_id
    let restore_event : NoteVersionRow :=
      { id := fresh_id
        note_id := note_id
        user_id := restore_user_id
        delta := .json (.obj [("kind", .str "restore"),
                              ("target_version_id", .str version_id),
                              ("user_name", .str restore_user_name)])
        timestamp := restored_at }
    let db2 : Db :=
      { notes := db.notes.map (fun n =>
          if n.id = note_id then { n with updated_at := restored_at } else n)
        versions := db.versions ++ [restore_event] }
    some (db2, { note_id := note_id
                 restored_from_version_id := version_id
                 restored_at := restored_at })
  | _, _ => none

/-- Rewrites the `updated_at` cache field of one note, leaving everything
else in the store unchanged.  Used to state that reconstruction never
depends on `updated_at`. -/
def touchNote (db : Db) (note_id : String) (t : Nat) : Db :=
  { notes := db.notes.map (fun n =>
      if n.id = note_id then { n with updated_at := t } else n)
    versions := db.versions }

/-- Python `m.get(k)` on a string-keyed dict, modelled as an association
list with at most one binding per key. -/
def alGet {α : Type} : List (String × α) → String → Option α
  | [], _ => none
  | (k2, v) :: rest, k => if k2 = k then some v else alGet rest k

/-- Python `m[k] = v`: replace the binding of `k` if present, append it
otherwise. -/
def alSet {α : Type} (m : List (String × α)) (k : String) (v : α) : List (String × α) :=
  match m with
  | [] => [(k, v)]
  | (k2, v2) :: rest => if k2 = k then (k, v) :: rest else (k2, v2) :: alSet rest k v

/-- Python `m.pop(k, None)` / `del m[k]`: drop every binding of `k`. -/
def alRemove {α : Type} : List (String × α) → String → List (String × α)
  | [], _ => []
  | (k2, v) :: rest, k => if k2 = k then alRemove rest k else (k2, v) :: alRemove rest k

/-- Python `s.add(x)` on a set modelled as a duplicate-free list. -/
def setAdd (s : List String) (x : String) : List String :=
  if x ∈ s then s else s ++ [x]

/-- Python `s.discard(x)`. -/
def setDiscard (s : List String) (x : String) : List String :=
  s.filter (fun y => decide (y ≠ x))

/-- SioState is the in-process realtime state of main.py: the module-level
registries `active_users` (note id to member principal ids, line 107),
`user_emails` (line 108), `sid_to_note` (line 109), `sid_to_user`
(line 110), plus socket.io room membership (room name to sids). -/
structure SioState where
  active_users : List (String × List String)
  user_emails : List (String × String)
  sid_to_note : List (String × String)
  sid_to_user : List (String × String)
  rooms : List (String × List String)

/-- Empty realtime state at process start. -/
def SioState.init : SioState := ⟨[], [], [], [], []⟩

/-- Addressing of one `sio.emit` call: directly to a sid (`to=sid`) or to a
room with an optional excluded sid (`room=..., skip_sid=...`). -/
inductive EmitTarget where
  | toSid (sid : String)
  | room (name : String) (skip : Option String)

/-- One `sio.emit` call: event name, payload and addressing. -/
structure Emit where
  event : String
  payload : Json
  target : EmitTarget

/-- Error payload `\x7b"message": msg\x7d`. -/
def errPayload (msg : String) : Json := .obj [("message", .str msg)]

/-- Embeds the `user_names` dict comprehension of main.py (lines 543, 557,
671): each member mapped to `user_emails.get(uid, uid)`. -/
def userNamesJson (emails : List (String × String)) (members : List String) : Json :=
  .obj (members.map (fun uid => (uid, Json.str ((alGet emails uid).getD uid))))

/-- Embeds the content fallback of `join_note` (main.py lines 527-532): the
stored note content when it is non-empty text that parses as JSON, the
default empty document otherwise. -/
def contentJson : DeltaText → Json
  | .json j => j
  | .invalid _ =>
    .obj [("type", .str "doc"), ("content", .arr [.obj [("type", .str "paragraph")]])]

/-- Embeds the `join_note` Socket.IO handler (main.py lines 488-577).
`verify` is the external token verifier (firebase `verify_id_token`,
out-of-scope per spec section 1), returning the principal id and email on
success.  The `note_id` and `token` payload fields are given as optional
strings per the protocol of spec section 6 (absent or `""` are the falsy
cases the handler rejects).  Returns the new state and the emitted
messages. -/
def join_note (verify : String → Option (String × String)) (db : Db) (st : SioState)
    (sid : String) (note_id? token? : Option String) : SioState × List Emit :=
  match note_id?, token? with
  | some note_id, some token =>
    if note_id = "" ∨ token = "" then
      (st, [⟨"error", errPayload "Invalid request", .toSid sid⟩])
    else
      match verify token with
      | none => (st, [⟨"error", errPayload "Authentication failed", .toSid sid⟩])
      | some (user_id, user_email) =>
        let roomName := "note_" ++ note_id
        let newRoom := setAdd ((alGet st.rooms roomName).getD []) sid
        let st1 : SioState := { st with rooms := alSet st.rooms roomName newRoom }
        let st2 : SioState :=
          { st1 with
            active_users :=
              alSet st1.active_users note_id
                (setAdd ((alGet st1.active_users note_id).getD []) user_id)
            user_emails := alSet st1.user_emails user_id user_email
            sid_to_note := alSet st1.sid_to_note sid note_id
            sid_to_user := alSet st1.sid_to_user sid user_id }
        match findNote db note_id with
        | some note =>
          let yjs_updates := extract_yjs_updates (sortAsc (versionsOf db note_id))
          let members := (alGet st2.active_users note_id).getD []
          let user_names := userNamesJson st2.user_emails members
          (st2,
            [⟨"load_note",
              .obj [("content", contentJson note.content),
                    ("yjs_updates", .arr (yjs_updates.map .str)),
                    ("title", .str note.title),
                    ("active_users", .arr (members.map .str)),
                    ("user_names", user_names)],
              .toSid sid⟩,
             ⟨"user_joined",
              .obj [("user_id", .str user_id),
                    ("user_name", .str user_email),
                    ("active_users", .arr (members.map .str)),
                    ("user_names", user_names)],
              .room roomName (some sid)⟩])
        | none => (st2, [⟨"error", errPayload "Note not found", .toSid sid⟩])
  | _, _ => (st, [⟨"error", errPayload "Invalid request", .toSid sid⟩])

/-- Embeds `note_id = data.get("note_id") or sid_to_note.get(sid)`
(main.py line 587): the payload field when truthy, the session binding
otherwise. -/
def resolveNoteId (st : SioState) (sid : String) (data : List (String × Json)) :
    Option Json :=
  match dGet data "note_id" with
  | some j => if j.truthy then some j else (alGet st.sid_to_note sid).map Json.str
  | none => (alGet st.sid_to_note sid).map Json.str

/-- Embeds the display name used when persisting an update (main.py lines
609-610): `user_emails.get(user_id, user_id)` for
`user_id = sid_to_user.get(sid, "unknown")`. -/
def senderUserName (st : SioState) (sid : String) : String :=
  let user_id := (alGet st.sid_to_user sid).getD "unknown"
  (alGet st.user_emails user_id).getD user_id

/-- The delta text `json.dumps(\x7b"kind": "yjs_update", "update":
update_payload, "user_name": user_name\x7d)` a submission produces
(main.py lines 611-613). -/
def submittedDelta (st : SioState) (sid : String) (update_payload : String) : DeltaText :=
  .json (.obj [("kind", .str "yjs_update"),
               ("update", .str update_payload),
               ("user_name", .str (senderUserName st sid))])

/-- Embeds the `yjs_update` Socket.IO handler (main.py lines 580-656).
The handler never mutates the realtime registries; it returns the
(possibly extended) store and the emitted messages.  `now` stands for
`datetime.utcnow()` and `fresh_id` for the generated row id.  The payload
`data` is the decoded JSON dict of the client message; an empty dict also
models a falsy `data`. -/
def yjs_update (db : Db) (st : SioState) (sid : String)
    (data : List (String × Json)) (now : Nat) (fresh_id : String) : Db × List Emit :=
  if data.isEmpty || !hasKey data "update" then
    (db, [])
  else
    let note_id? := resolveNoteId st sid data
    if !optTruthy note_id? then
      (db, [⟨"error", errPayload "Missing note_id", .toSid sid⟩])
    else
      match dGet data "update" with
      | some (.str update_payload) =>
        if update_payload = "" then
          (db, [⟨"error", errPayload "Invalid yjs update payload", .toSid sid⟩])
        else
          match note_id? with
          | some (.str note_id) =>
            (match findNote db note_id with
             | none => (db, [⟨"error", errPayload "Note not found", .toSid sid⟩])
             | some _ =>
               let delta_payload := submittedDelta st sid update_payload
               let broadcast : Emit :=
                 ⟨"yjs_update",
                  .obj [("note_id", .str note_id), ("update", .str update_payload)],
                  .room ("note_" ++ note_id) (some sid)⟩
               match lastVersionDesc db note_id with
               | some last_version =>
                 if DeltaText.beq last_version.delta delta_payload then
                   (db, [broadcast])
                 else
                   ({ db with versions := db.versions ++
                      [{ id := fresh_id, note_id := note_id,
                         user_id := (alGet st.sid_to_user sid).getD "unknown",
                         delta := delta_payload, timestamp := now }] },
                    [broadcast])
               | none =>
                 ({ db with versions := db.versions ++
                    [{ id := fresh_id, note_id := note_id,
                       user_id := (alGet st.sid_to_user sid).getD "unknown",
                       delta := delta_payload, timestamp := now }] },
                  [broadcast]))
          | _ =>
            -- a truthy non-string note id never matches the string primary
            -- key column, so the lookup fails as for a missing note
            (db, [⟨"error", errPayload "Note not found", .toSid sid⟩])
      | some _ =>
        (db, [⟨"error", errPayload "Invalid yjs update payload", .toSid sid⟩])
      | none => (db, [])

/-- Embeds the `disconnect` Socket.IO handler (main.py lines 659-682)
followed by socket.io room cleanup.  The handler pops the session
bindings, removes the principal from the note's member set, deletes the
registry entry when it becomes empty and otherwise emits `user_left` to
the note's room with no `skip_sid`.  python-socketio removes the closing
sid from its rooms only after the handler returns, so the emitted room
still contains the disconnecting sid; that removal is applied at the end. -/
def disconnect (st : SioState) (sid : String) : SioState × List Emit :=
  let note_id? := alGet st.sid_to_note sid
  let user_id? := alGet st.sid_to_user sid
  let st1 : SioState :=
    { st with sid_to_note := alRemove st.sid_to_note sid
              sid_to_user := alRemove st.sid_to_user sid }
  let (st2, emits) :=
    match note_id?, user_id? with
    | some note_id, some user_id =>
      if note_id = "" ∨ user_id = "" ∨ alGet st1.active_users note_id = none then
        (st1, ([] : List Emit))
      else
        let members := setDiscard ((alGet st1.active_users note_id).getD []) user_id
        if members = [] then
          ({ st1 with active_users := alRemove st1.active_users note_id }, [])
        else
          ({ st1 with active_users := alSet st1.active_users note_id members },
           [⟨"user_left",
             .obj [("user_id", .str user_id),
                   ("active_users", .arr (members.map .str)),
                   ("user_names", userNamesJson st1.user_emails members)],
             .room ("note_" ++ note_id) none⟩])
    | _, _ => (st1, [])
  ({ st2 with rooms := st2.rooms.map (fun p => (p.1, p.2.filter (fun x => x != sid))) },
   emits)

/-- Recipients of an emitted message, given the room membership in force at
emit time: the room members minus the skipped sid for a broadcast, the
addressed sid alone otherwise. -/
def recipients (rooms : List (String × List String)) (e : Emit) : List String :=
  match e.target with
  | .toSid sid => [sid]
  | .room name skip => ((alGet rooms name).getD []).filter (fun x => some x != skip)

/-- Field access on a serialized JSON object. -/
def jsonField (j : Json) (k : String) : Option Json :=
  match j with
  | .obj fields => dGet fields k
  | _ => none

/-- The broadcast message a successful `yjs_update` emits (main.py lines
648-653): the update relayed to the note's room, skipping the submitting
sid. -/
def yjsBroadcast (note_id update_payload sid : String) : Emit :=
  ⟨"yjs_update",
   .obj [("note_id", .str note_id), ("update", .str update_payload)],
   .room ("note_" ++ note_id) (some sid)⟩

/-- Ev is one realtime connection-lifecycle event relevant to presence:
a `join_note` message or a transport disconnect. -/
inductive Ev where
  | join (sid : String) (note_id? token? : Option String)
  | disc (sid : String)

/-- State effect of one event (the emits are dropped). -/
def stepEv (verify : String → Option (String × String)) (db : Db)
    (st : SioState) : Ev → SioState
  | .join sid note_id? token? => (join_note verify db st sid note_id? token?).1
  | .disc sid => (disconnect st sid).1

/-- Runs a finite sequence of events from a state. -/
def runEvs (verify : String → Option (String × String)) (db : Db)
    (st : SioState) : List Ev → SioState
  | [] => st
  | e :: rest => runEvs verify db (stepEv verify db st e) rest

/-- Decides whether some live connection is currently bound to the given
document and principal (a Bound session in the spec's sense: present in
both `sid_to_note` and `sid_to_user`). -/
def liveBound (st : SioState) (nid uid : String) : Bool :=
  st.sid_to_note.any (fun p =>
    decide (alGet st.sid_to_note p.1 = some nid ∧ alGet st.sid_to_user p.1 = some uid))

/-- Wellformedness of one event against the current state, the proviso
under which membership consistency holds: an accepted join must be on a
connection with no current binding, must authenticate a non-empty
principal id, and must not create a second simultaneous connection of the
same principal to the same document.  Rejected joins and disconnects are
always fine. -/
def evOkB (verify : String → Option (String × String)) (st : SioState) : Ev → Bool
  | .join sid note_id? token? =>
    match note_id?, token? with
    | some nid, some tok =>
      if nid = "" ∨ tok = "" then true
      else
        match verify tok with
        | some (uid, _) =>
          decide (alGet st.sid_to_note sid = none) && decide (uid ≠ "")
            && !liveBound st nid uid
        | none => true
    | _, _ => true
  | .disc _ => true

/-- Wellformedness of a whole event sequence, each event checked against
the state it executes in. -/
def traceOkB (verify : String → Option (String × String)) (db : Db) :
    SioState → List Ev → Bool
  | _, [] => true
  | st, e :: rest => evOkB verify st e && traceOkB verify db (stepEv verify db st e) rest

/-- Membership consistency of the `active_users` registry (spec section
4.4): an entry exists iff at least one live connection is bound to the
document, and its member set holds exactly the principals with at least
one live bound connection to it. -/
def registryConsistent (st : SioState) : Prop :=
  (∀ nid members, alGet st.active_users nid = some members →
      members ≠ [] ∧ ∀ uid, uid ∈ members ↔ liveBound st nid uid = true) ∧
  (∀ nid, alGet st.active_users nid = none → ∀ uid, liveBound st nid uid = false)

/-- Strengthened induction invariant for membership consistency: registry
consistency plus wellformedness of the session maps (bindings are paired,
ids non-empty, and at most one live connection per document/principal
pair). -/
def stInv (st : SioState) : Prop :=
  registryConsistent st ∧
  (∀ sid nid, alGet st.sid_to_note sid = some nid →
      nid ≠ "" ∧ ∃ uid, alGet st.sid_to_user sid = some uid ∧ uid ≠ "") ∧
  (∀ sid uid, alGet st.sid_to_user sid = some uid →
      ∃ nid, alGet st.sid_to_note sid = some nid) ∧
  (∀ s1 s2 nid uid, alGet st.sid_to_note s1 = some nid →
      alGet st.sid_to_user s1 = some uid → alGet st.sid_to_note s2 = some nid →
      alGet st.sid_to_user s2 = some uid → s1 = s2)

/-- Registry part of the state a successful join produces (main.py lines
511-519): the connection is entered into the room and bound, the principal
added to the member set and the email cache updated. -/
def applyJoin (st : SioState) (sid nid uid email : String) : SioState :=
  let roomName := "note_" ++ nid
  let newRoom := setAdd ((alGet st.rooms roomName).getD []) sid
  let st1 : SioState := { st with rooms := alSet st.rooms roomName newRoom }
  { st1 with
    active_users :=
      alSet st1.active_users nid (setAdd ((alGet st1.active_users nid).getD []) uid)
    user_emails := alSet st1.user_emails uid email
    sid_to_note := alSet st1.sid_to_note sid nid
    sid_to_user := alSet st1.sid_to_user sid uid }

/-- Verifier used by the concrete scenarios: one valid token `"t1"` for
principal `"u1"`, and `"t2"` for `"u2"`. -/
def exVerify : String → Option (String × String) := fun tok =>
  if tok = "t1" then some ("u1", "u1@example.com")
  else if tok = "t2" then some ("u2", "u2@example.com")
  else none

/-- Store with a single note `"n1"` whose log holds one `yjs_update` record
with an empty `update` payload. -/
def cexDb : Db :=
  { notes := [{ id := "n1", title := "T", content := .invalid "",
                created_at := 0, updated_at := 9 }]
    versions := [{ id := "v1", note_id := "n1", user_id := "u1",
                   delta := .json (.obj [("kind", .str "yjs_update"),
                                         ("update", .str "")]),
                   timestamp := 5 }] }

/-- Store mirroring the seeding of `tests/test_versions_api.py`: one note
with a named `yjs_update`, a `presence` record and an unnamed
`yjs_update`. -/
def seedDb : Db :=
  { notes := [{ id := "n1", title := "Test Note", content := .invalid "",
                created_at := 0, updated_at := 0 }]
    versions :=
      [{ id := "v1", note_id := "n1", user_id := "u1",
         delta := .json (.obj [("kind", .str "yjs_update"),
                               ("update", .str "AAA"),
                               ("user_name", .str "Alice")]),
         timestamp := 100 },
       { id := "v2", note_id := "n1", user_id := "u2",
         delta := .json (.obj [("kind", .str "presence"), ("cursor", .num 1)]),
         timestamp := 101 },
       { id := "v3", note_id := "n1", user_id := "u3",
         delta := .json (.obj [("kind", .str "yjs_update"),
                               ("update", .str "BBB")]),
         timestamp := 102 }] }

/-- Store with one note whose log holds two records with undecodable delta
blobs: raw non-JSON text and JSON `null`. -/
def garbageDb : Db :=
  { notes := [{ id := "n9", title := "G", content := .invalid "",
                created_at := 0, updated_at := 0 }]
    versions :=
      [{ id := "v9", note_id := "n9", user_id := "u9",
         delta := .invalid "not json", timestamp := 3 },
       { id := "v10", note_id := "n9", user_id := "u10",
         delta := .json .null, timestamp := 4 }] }

/-- Realtime state after two principals join note `"n1"` on connections
`"s1"` and `"s2"`. -/
def twoUserState : SioState :=
  runEvs exVerify ⟨[], []⟩ SioState.init
    [.join "s1" (some "n1") (some "t1"), .join "s2" (some "n1") (some "t2")]

/-- Realtime state after principal `"u1"` joins note `"n1"` on two
connections and the first of them disconnects. -/
def twoTabState : SioState :=
  runEvs exVerify ⟨[], []⟩ SioState.init
    [.join "s1" (some "n1") (some "t1"), .join "s2" (some "n1") (some "t1"),
     .disc "s1"]

/-- The change record a non-duplicate submission appends (main.py lines
632-637). -/
def newYjsRecord (st : SioState) (sid nid s : String) (now : Nat)
    (fid : String) : NoteVersionRow :=
  { id := fid, note_id := nid,
    user_id := (alGet st.sid_to_user sid).getD "unknown",
    delta := submittedDelta st sid s, timestamp := now }

/-- Store with one note `"n1"` whose log tail is exactly the delta an
anonymous submission of `"X"` would produce. -/
def dbC2 : Db :=
  { notes := [{ id := "n1", title := "T", content := .invalid "",
                created_at := 0, updated_at := 0 }]
    versions := [{ id := "v1", note_id := "n1", user_id := "unknown",
                   delta := .json (.obj [("kind", .str "yjs_update"),
                                         ("update", .str "X"),
                                         ("user_name", .str "unknown")]),
                   timestamp := 1 }] }

/-- Checks one emitted message against an expected broadcast exclusion:
direct messages are unconstrained, room broadcasts must carry exactly the
given `skip_sid`. -/
def roomSkipOk (skexp : Option String) (e : Emit) : Bool :=
  match e.target with
  | .toSid _ => true
  | .room _ sk => decide (sk = skexp)

/-- Store with two notes and an empty change log. -/
def dbC6 : Db :=
  { notes := [{ id := "n1", title := "A", content := .invalid "",
                created_at := 0, updated_at := 0 },
              { id := "n2", title := "B", content := .invalid "",
                created_at := 0, updated_at := 0 }]
    versions := [] }

/-- Realtime state after connection `"s1"` has joined note `"n1"` (a bound
connection). -/
def st6 : SioState :=
  (join_note exVerify dbC6 SioState.init "s1" (some "n1") (some "t1")).1

/-- Shape of the realtime state after a disconnect: the closing sid popped
from both session maps, with the given registry and room contents. -/
def popState (st : SioState) (sid : String)
    (au2 rooms2 : List (String × List String)) : SioState :=
  { active_users := au2, user_emails := st.user_emails,
    sid_to_note := alRemove st.sid_to_note sid,
    sid_to_user := alRemove st.sid_to_user sid,
    rooms := rooms2 }

mutual

/-- Reflexivity of `Json.beq`. -/
theorem Json.beq_refl : (a : Json) → Json.beq a a = true
  | .null => rfl
  | .bool b => by simp [Json.beq]
  | .num n => by simp [Json.beq]
  | .str s => by simp [Json.beq]
  | .arr xs => by simp [Json.beq, Json.beqList_refl xs]
  | .obj xs => by simp [Json.beq, Json.beqFields_refl xs]

/-- Reflexivity of `Json.beqList`. -/
theorem Json.beqList_refl : (xs : List Json) → Json.beqList xs xs = true
  | [] => rfl
  | x :: xs => by simp [Json.beqList, Json.beq_refl x, Json.beqList_refl xs]

/-- Reflexivity of `Json.beqFields`. -/
theorem Json.beqFields_refl : (xs : List (String × Json)) → Json.beqFields xs xs = true
  | [] => rfl
  | (k, v) :: xs => by simp [Json.beqFields, Json.beq_refl v, Json.beqFields_refl xs]

end

/-- Reflexivity of `DeltaText.beq`. -/
theorem DeltaText.beq_self : (d : DeltaText) → DeltaText.beq d d = true
  | .json j => by simp [DeltaText.beq, Json.beq_refl j]
  | .invalid s => by simp [DeltaText.beq]

/-- Reading a map after writing a key. -/
theorem alGet_alSet {α : Type} (m : List (String × α)) (k : String) (v : α) (x : String) :
    alGet (alSet m k v) x = if x = k then some v else alGet m x := by
  induction m with
  | nil =>
    by_cases h : x = k
    · subst h; simp [alSet, alGet]
    · have h2 : ¬ k = x := fun e => h e.symm
      simp [alSet, alGet, h, h2]
  | cons p m ih =>
    obtain ⟨a, b⟩ := p
    by_cases hak : a = k
    · subst hak
      by_cases hxa : x = a
      · subst hxa; simp [alSet, alGet]
      · have h2 : ¬ a = x := fun e => hxa e.symm
        simp [alSet, alGet, hxa, h2]
    · by_cases hax : a = x
      · subst hax
        have hxk : ¬ a = k := hak
        simp [alSet, alGet, hak, hxk, fun e => hak (e : a = k)]
      · simp [alSet, alGet, hak, hax, ih]

/-- Reading a map after removing a key. -/
theorem alGet_alRemove {α : Type} (m : List (String × α)) (k : String) (x : String) :
    alGet (alRemove m k) x = if x = k then none else alGet m x := by
  induction m with
  | nil => simp [alRemove, alGet]
  | cons p m ih =>
    obtain ⟨a, b⟩ := p
    by_cases hak : a = k
    · subst hak
      by_cases hxa : x = a
      · subst hxa; simp [alRemove, alGet, ih]
      · have h2 : ¬ a = x := fun e => hxa e.symm
        simp [alRemove, alGet, h2, ih]
    · by_cases hax : a = x
      · subst hax
        have hxk : ¬ a = k := hak
        simp [alRemove, alGet, hak, hxk]
      · simp [alRemove, alGet, hak, hax, ih]

/-- Membership in a set after `add`. -/
theorem mem_setAdd (s : List String) (x y : String) :
    y ∈ setAdd s x ↔ y = x ∨ y ∈ s := by
  unfold setAdd
  by_cases hm : x ∈ s
  · rw [if_pos hm]
    constructor
    · exact Or.inr
    · rintro (rfl | h)
      · exact hm
      · exact h
  · rw [if_neg hm]
    simp [List.mem_append]
    tauto

/-- A set is non-empty after `add`. -/
theorem setAdd_ne_nil (s : List String) (x : String) : setAdd s x ≠ [] := by
  unfold setAdd
  by_cases hm : x ∈ s
  · rw [if_pos hm]
    exact List.ne_nil_of_mem hm
  · rw [if_neg hm]
    simp

/-- Membership in a set after `discard`. -/
theorem mem_setDiscard (s : List String) (x y : String) :
    y ∈ setDiscard s x ↔ y ∈ s ∧ y ≠ x := by
  simp [setDiscard, List.mem_filter]

/-- Existence of an entry for a key on which `alGet` succeeds. -/
theorem alGet_some_mem_key {α : Type} (m : List (String × α)) (k : String) (v : α)
    (h : alGet m k = some v) : ∃ p, p ∈ m ∧ p.1 = k := by
  induction m with
  | nil => simp [alGet] at h
  | cons q m ih =>
    obtain ⟨a, b⟩ := q
    by_cases hak : a = k
    · exact ⟨(a, b), List.mem_cons_self _ _, hak⟩
    · simp only [alGet, hak, if_false] at h
      obtain ⟨p, hp, hpk⟩ := ih h
      exact ⟨p, List.mem_cons_of_mem _ hp, hpk⟩

/-- Characterization of `liveBound` as existence of a bound live
connection. -/
theorem liveBound_iff (st : SioState) (nid uid : String) :
    liveBound st nid uid = true ↔
      ∃ sid, alGet st.sid_to_note sid = some nid ∧ alGet st.sid_to_user sid = some uid := by
  unfold liveBound
  rw [List.any_eq_true]
  constructor
  · rintro ⟨p, _, hcond⟩
    rw [decide_eq_true_eq] at hcond
    exact ⟨p.1, hcond.1, hcond.2⟩
  · rintro ⟨sid, h1, h2⟩
    obtain ⟨p, hp, hpk⟩ := alGet_some_mem_key _ _ _ h1
    refine ⟨p, hp, ?_⟩
    rw [decide_eq_true_eq, hpk]
    exact ⟨h1, h2⟩

/-- Extraction equals filtering by the guard and rendering the payloads. -/
theorem extract_eq_filter_map (l : List NoteVersionRow) :
    extract_yjs_updates l = (l.filter isYjsTruthy).map yjsPayloadStr := by
  induction l with
  | nil => rfl
  | cons v l ih =>
    cases h : isYjsTruthy v <;>
      simp [extract_yjs_updates, List.filterMap_cons, yjsPayload?, h,
        List.filter_cons] <;>
      simpa [extract_yjs_updates] using ih

/-- Inserting an element strictly below an upper bound appended at the
end leaves that bound last. -/
theorem orderedInsert_append_last (x a : NoteVersionRow) (m : List NoteVersionRow)
    (h : x.timestamp < a.timestamp) :
    List.orderedInsert tsLE x (m ++ [a]) = List.orderedInsert tsLE x m ++ [a] := by
  induction m with
  | nil =>
    have : tsLE x a := Nat.le_of_lt h
    simp [List.orderedInsert, this]
  | cons b m ih =>
    by_cases hb : tsLE x b
    · simp [List.orderedInsert, hb]
    · simp [List.orderedInsert, hb, ih]

/-- Sorting with a strict maximum appended places it last. -/
theorem sortAsc_append_max (l : List NoteVersionRow) (a : NoteVersionRow)
    (h : ∀ x ∈ l, x.timestamp < a.timestamp) :
    sortAsc (l ++ [a]) = sortAsc l ++ [a] := by
  induction l with
  | nil => simp [sortAsc, List.insertionSort]
  | cons x l ih =>
    have ih2 := ih (fun y hy => h y (List.mem_cons_of_mem _ hy))
    simp only [List.cons_append, List.append_eq, sortAsc, List.insertionSort] at ih2 ⊢
    rw [ih2]
    exact orderedInsert_append_last x a _ (h x (List.mem_cons_self _ _))

/-- The tail query after appending a record with a strictly maximal
timestamp returns exactly that record. -/
theorem lastVersionDesc_append (db : Db) (nid : String) (a : NoteVersionRow)
    (ha : a.note_id = nid)
    (h : ∀ v ∈ versionsOf db nid, v.timestamp < a.timestamp) :
    lastVersionDesc { db with versions := db.versions ++ [a] } nid = some a := by
  have hvo : versionsOf { db with versions := db.versions ++ [a] } nid
      = versionsOf db nid ++ [a] := by
    simp [versionsOf, List.filter_append, ha]
  rw [lastVersionDesc, sortDesc, hvo, sortAsc_append_max _ _ h]
  simp

/-- Inserting below all elements of a list prepends. -/
theorem orderedInsert_eq_cons (a : NoteVersionRow) (l : List NoteVersionRow)
    (h : ∀ x ∈ l, tsLE a x) : List.orderedInsert tsLE a l = a :: l := by
  cases l with
  | nil => rfl
  | cons b l => simp [List.orderedInsert, h b (List.mem_cons_self _ _)]

/-- Filtering commutes with ordered insertion of a kept element into a
sorted list. -/
theorem filter_orderedInsert_pos (p : NoteVersionRow → Bool) (a : NoteVersionRow)
    (m : List NoteVersionRow) (hs : List.Sorted tsLE m) (hp : p a = true) :
    (List.orderedInsert tsLE a m).filter p = List.orderedInsert tsLE a (m.filter p) := by
  induction m with
  | nil => simp [List.orderedInsert, List.filter, hp]
  | cons b m ih =>
    have hrest := List.sorted_cons.mp hs
    by_cases hab : tsLE a b
    · have hall : ∀ x ∈ (b :: m).filter p, tsLE a x := by
        intro x hx
        have hxm := (List.mem_filter.mp hx).1
        rcases List.mem_cons.mp hxm with rfl | hxm2
        · exact hab
        · exact Nat.le_trans hab (hrest.1 x hxm2)
      rw [orderedInsert_eq_cons a _ hall]
      simp [List.orderedInsert, hab, List.filter_cons, hp]
    · by_cases hpb : p b = true
      · simp [List.orderedInsert, hab, List.filter_cons, hpb, ih hrest.2]
      · simp at hpb
        simp [List.orderedInsert, hab, List.filter_cons, hpb, ih hrest.2]

/-- Filtering away the inserted element undoes the insertion. -/
theorem filter_orderedInsert_neg (p : NoteVersionRow → Bool) (a : NoteVersionRow)
    (m : List NoteVersionRow) (hp : p a = false) :
    (List.orderedInsert tsLE a m).filter p = m.filter p := by
  induction m with
  | nil => simp [List.orderedInsert, List.filter, hp]
  | cons b m ih =>
    by_cases hab : tsLE a b
    · simp [List.orderedInsert, hab, List.filter_cons, hp]
    · by_cases hpb : p b = true
      · simp [List.orderedInsert, hab, List.filter_cons, hpb, ih]
      · simp at hpb
        simp [List.orderedInsert, hab, List.filter_cons, hpb, ih]

/-- Stable sorting commutes with filtering. -/
theorem sortAsc_filter (p : NoteVersionRow → Bool) (l : List NoteVersionRow) :
    sortAsc (l.filter p) = (sortAsc l).filter p := by
  induction l with
  | nil => rfl
  | cons a l ih =>
    by_cases hp : p a = true
    · simp only [List.filter_cons, hp, if_true, sortAsc, List.insertionSort] at ih ⊢
      rw [ih, filter_orderedInsert_pos p a _ (List.sorted_insertionSort tsLE l) hp]
    · simp at hp
      simp only [List.filter_cons, hp, Bool.false_eq_true, if_false, sortAsc,
        List.insertionSort] at ih ⊢
      rw [ih, filter_orderedInsert_neg p a _ hp]

/-- Looking up a note in a store whose notes were rewritten by an
id-preserving function. -/
theorem findNote_map_id_preserving (db : Db) (nid : String) (f : NoteRow → NoteRow)
    (hf : ∀ n, (f n).id = n.id) (vs : List NoteVersionRow) :
    findNote { notes := db.notes.map f, versions := vs } nid = (findNote db nid).map f := by
  unfold findNote
  simp only
  rw [List.find?_map]
  have hp : ((fun n => decide (n.id = nid)) ∘ f) = (fun n => decide (n.id = nid)) := by
    funext n
    simp [Function.comp, hf n]
  rw [hp]

/-- Rewriting any document `updated_at` leaves the snapshot endpoint
unchanged: reconstruction reads only note existence and the version log. -/
theorem get_note_version_snapshot_touch (db : Db) (nid2 : String) (t : Nat)
    (nid vid : String) :
    get_note_version_snapshot (touchNote db nid2 t) nid vid =
      get_note_version_snapshot db nid vid := by
  unfold get_note_version_snapshot
  have h1 : findNote (touchNote db nid2 t) nid =
      (findNote db nid).map
        (fun n => if n.id = nid2 then { n with updated_at := t } else n) :=
    findNote_map_id_preserving db nid _
      (fun n => by by_cases hid : n.id = nid2 <;> simp [hid]) db.versions
  rw [h1, show findVersion (touchNote db nid2 t) nid vid = findVersion db nid vid from rfl,
      show versionsOf (touchNote db nid2 t) nid = versionsOf db nid from rfl]
  cases findNote db nid <;> cases findVersion db nid vid <;> simp

/-- C1 (corrected): the snapshot endpoint drops a `yjs_update` record whose
`update` payload is the empty string.  On a store whose single record for
note `"n1"` has kind `yjs_update` and payload `""`, the endpoint returns no
payloads, while the payload list of all `yjs_update`-kind records with
timestamp at most the target is `[""]`, so the returned sequence is not
exactly the payloads of the `yjs_update`-kind records. -/
theorem snapshot_fullness_cex :
    (get_note_version_snapshot cexDb "n1" "v1").map (fun r => r.yjs_updates) = some [] ∧
    ((sortAsc (versionsOf cexDb "n1")).filter
        (fun v => decide (v.timestamp ≤ 5) && isYjsKind v)).map yjsPayloadStr = [""] :=
  ⟨rfl, rfl⟩

/-- C1 (amended): for every document and stored target version, the
version-snapshot operation returns exactly the payloads of the records
whose delta has kind `yjs_update` and a truthy `update` field, restricted
to records with timestamp at most the target version timestamp, in
ascending timestamp order; and the result never depends on any document
`updated_at` field. -/
theorem snapshot_replays_bounded_log (db : Db) (nid vid : String)
    (resp : NoteVersionSnapshotResponse)
    (h : get_note_version_snapshot db nid vid = some resp) :
    (∃ target, findVersion db nid vid = some target ∧
      resp.version_timestamp = target.timestamp ∧
      resp.yjs_updates =
        ((sortAsc (versionsOf db nid)).filter
          (fun v => decide (v.timestamp ≤ target.timestamp) && isYjsTruthy v)).map
          yjsPayloadStr) ∧
    (∀ (nid2 : String) (t : Nat),
      get_note_version_snapshot (touchNote db nid2 t) nid vid = some resp) := by
  constructor
  · unfold get_note_version_snapshot at h
    cases hfn : findNote db nid with
    | none => rw [hfn] at h; simp at h
    | some note =>
      cases hfv : findVersion db nid vid with
      | none => rw [hfn, hfv] at h; simp at h
      | some target =>
        rw [hfn, hfv] at h
        simp only [Option.some.injEq] at h
        refine ⟨target, rfl, ?_, ?_⟩
        · rw [← h]
        · rw [← h]
          show extract_yjs_updates
              (sortAsc ((versionsOf db nid).filter
                (fun v => decide (v.timestamp ≤ target.timestamp)))) = _
          rw [extract_eq_filter_map, sortAsc_filter, List.filter_filter]
          congr 1
          apply List.filter_congr
          intro v _
          rw [Bool.and_comm]
  · intro nid2 t
    rw [get_note_version_snapshot_touch]
    exact h

/-- Witness for C1 (amended): on the seeded store, reconstruction up to
the `presence` record at timestamp 101 yields exactly `["AAA"]`, and the
result is unchanged after rewriting the document `updated_at` to 777. -/
theorem snapshot_replays_bounded_log_witness :
    get_note_version_snapshot (touchNote seedDb "n1" 777) "n1" "v2" =
      some { note_id := "n1", version_id := "v2", version_timestamp := 101,
             yjs_updates := ["AAA"] } :=
  (snapshot_replays_bounded_log seedDb "n1" "v2" _ rfl).2 "n1" 777

/-- C7 (confirmed): for an existing document and target version, restore
appends exactly one change record of kind `restore` carrying the target
version id, the supplied `user_id` (default `"system"`) and the supplied
`user_name` (default the user id), sets the document `updated_at` to the
restore time and returns the document id, version id and restore time; a
missing document or version yields 404 with nothing appended. -/
theorem restore_appends_single_restore_record (db : Db) (nid vid : String)
    (rdata : NoteRestoreRequest) (t : Nat) (fid : String) :
    (∀ note target, findNote db nid = some note → findVersion db nid vid = some target →
      ∃ db2, restore_note_version db nid vid rdata t fid =
          some (db2, { note_id := nid, restored_from_version_id := vid,
                       restored_at := t }) ∧
        db2.versions = db.versions ++
          [{ id := fid, note_id := nid,
             user_id := pyOrDefault rdata.user_id "system",
             delta := .json (.obj [("kind", .str "restore"),
                                   ("target_version_id", .str vid),
                                   ("user_name", .str (pyOrDefault rdata.user_name
                                      (pyOrDefault rdata.user_id "system")))]),
             timestamp := t }] ∧
        findNote db2 nid = some { note with updated_at := t }) ∧
    ((findNote db nid = none ∨ findVersion db nid vid = none) →
      restore_note_version db nid vid rdata t fid = none) := by
  constructor
  · intro note target hn hv
    refine ⟨{ notes := db.notes.map
                (fun n => if n.id = nid then { n with updated_at := t } else n),
              versions := db.versions ++
                [{ id := fid, note_id := nid,
                   user_id := pyOrDefault rdata.user_id "system",
                   delta := .json (.obj [("kind", .str "restore"),
                                         ("target_version_id", .str vid),
                                         ("user_name", .str (pyOrDefault rdata.user_name
                                            (pyOrDefault rdata.user_id "system")))]),
                   timestamp := t }] }, ?_, rfl, ?_⟩
    · unfold restore_note_version
      rw [hn, hv]
    · have hnid : note.id = nid := by
        have := List.find?_some hn
        simpa using this
      rw [findNote_map_id_preserving db nid _ (fun n => by
        by_cases hid : n.id = nid <;> simp [hid]) _]
      rw [hn]
      simp [hnid]
  · intro hcase
    unfold restore_note_version
    rcases hcase with hn | hv
    · rw [hn]
    · rw [hv]
      cases findNote db nid <;> rfl

/-- Witness for C7: restoring note `"n1"` from version `"v2"` of the
seeded store as user `"u9"`/`"Bob"` at time 200 appends the expected
`restore` record and touches `updated_at`. -/
theorem restore_appends_single_restore_record_witness :
    ∃ db2, restore_note_version seedDb "n1" "v2"
        { user_id := some "u9", user_name := some "Bob" } 200 "v4" =
        some (db2, { note_id := "n1", restored_from_version_id := "v2",
                     restored_at := 200 }) ∧
      db2.versions = seedDb.versions ++
        [{ id := "v4", note_id := "n1", user_id := "u9",
           delta := .json (.obj [("kind", .str "restore"),
                                 ("target_version_id", .str "v2"),
                                 ("user_name", .str "Bob")]),
           timestamp := 200 }] ∧
      findNote db2 "n1" = some { id := "n1", title := "Test Note",
                                 content := .invalid "", created_at := 0,
                                 updated_at := 200 } :=
  (restore_appends_single_restore_record seedDb "n1" "v2"
    { user_id := some "u9", user_name := some "Bob" } 200 "v4").1
    { id := "n1", title := "Test Note", content := .invalid "",
      created_at := 0, updated_at := 0 }
    { id := "v2", note_id := "n1", user_id := "u2",
      delta := .json (.obj [("kind", .str "presence"), ("cursor", .num 1)]),
      timestamp := 101 }
    rfl rfl

/-- C8 (code bug): on the store seeded exactly like
`tests/test_versions_api.py`, the version list returns the three records
newest first with the right kinds, but every serialized item lacks the
`user_name` field the repository test asserts (the handler computes
`user_name` — second conjunct — but the `NoteVersionListItem` schema does
not declare it, so pydantic drops it). -/
theorem list_versions_user_name_dropped :
    (list_note_versions seedDb "n1" 3).map
        (fun items => items.map
          (fun it => (it.kind, (jsonField (itemJson it) "user_name").isSome)))
      = some [("yjs_update", false), ("presence", false), ("yjs_update", false)] ∧
    (versionsOf seedDb "n1").map computedUserName = ["Alice", "u2", "u3"] :=
  ⟨rfl, rfl⟩

/-- C9 (code bug): listing is total over garbage delta blobs — records
whose delta is raw non-JSON text or JSON `null` are reported with kind
`"unknown"` — and the handler computes the `user_name` fallback to the
stored `user_id`, but the serialized items carry no `user_name` field at
all, so the fallback never reaches the response. -/
theorem list_versions_total_on_garbage_delta :
    (list_note_versions garbageDb "n9" 100).map
        (fun items => items.map
          (fun it => (it.kind, it.user_id, (jsonField (itemJson it) "user_name").isSome)))
      = some [("unknown", "u10", false), ("unknown", "u9", false)] ∧
    (versionsOf garbageDb "n9").map computedUserName = ["u9", "u10"] :=
  ⟨rfl, rfl⟩

/-- C10 (confirmed): extraction returns exactly the rendered payloads of
the records passing the guard (kind `yjs_update` and truthy `update`), so
any `yjs_update`-kind record with an absent, empty or otherwise falsy
`update` field is omitted; on the store `cexDb` both snapshot
reconstruction and join onboarding return strictly fewer payloads (none)
than the one persisted `yjs_update` record. -/
theorem extract_omits_falsy_update_payloads :
    (∀ l : List NoteVersionRow,
      extract_yjs_updates l = (l.filter isYjsTruthy).map yjsPayloadStr) ∧
    (get_note_version_snapshot cexDb "n1" "v1").map (fun r => r.yjs_updates.length)
      = some 0 ∧
    ((join_note exVerify cexDb SioState.init "s1" (some "n1") (some "t1")).2.map
        (fun e => (e.event, jsonField e.payload "yjs_updates")))
      = [("load_note", some (.arr [])), ("user_joined", none)] ∧
    ((versionsOf cexDb "n1").filter isYjsKind).length = 1 :=
  ⟨extract_eq_filter_map, rfl, rfl, rfl⟩

/-- Reduction of the `yjs_update` handler on a well-formed submission for
an existing note: validation passes and the result is decided by the
duplicate check against the log tail. -/
theorem yjs_update_run (db : Db) (st : SioState) (sid nid s : String)
    (now : Nat) (fid : String) (note : NoteRow)
    (hnid : nid ≠ "") (hs : s ≠ "") (hn : findNote db nid = some note) :
    yjs_update db st sid [("note_id", .str nid), ("update", .str s)] now fid =
      (match lastVersionDesc db nid with
       | some lv =>
         if DeltaText.beq lv.delta (submittedDelta st sid s) then
           (db, [yjsBroadcast nid s sid])
         else
           ({ db with versions := db.versions ++ [newYjsRecord st sid nid s now fid] },
            [yjsBroadcast nid s sid])
       | none =>
         ({ db with versions := db.versions ++ [newYjsRecord st sid nid s now fid] },
          [yjsBroadcast nid s sid])) := by
  have h1 : ([("note_id", Json.str nid), ("update", Json.str s)].isEmpty
      || !hasKey [("note_id", Json.str nid), ("update", Json.str s)] "update") = false := rfl
  have h2 : resolveNoteId st sid [("note_id", Json.str nid), ("update", Json.str s)]
      = some (.str nid) := by
    unfold resolveNoteId
    rw [show dGet [("note_id", Json.str nid), ("update", Json.str s)] "note_id"
        = some (.str nid) from rfl]
    simp [Json.truthy, hnid]
  have h3 : dGet [("note_id", Json.str nid), ("update", Json.str s)] "update"
      = some (.str s) := rfl
  have h4 : optTruthy (some (Json.str nid)) = true := by
    simp [optTruthy, Json.truthy, hnid]
  simp only [yjs_update, h1, h2, h3, h4, Bool.not_true, Bool.false_eq_true, if_false,
    ite_false, hs, hn]
  rfl

/-- C2 (confirmed): when the log tail for the target note holds a delta
byte-identical to the one the submission would produce, the handler
persists nothing (the store is returned unchanged) yet still broadcasts
the update to the note's room excluding the submitter; and submitting the
same payload twice in a row (with server-assigned timestamps past the
existing log) grows the log by at most one record. -/
theorem yjs_duplicate_tail_skips_persist (db : Db) (st : SioState)
    (sid nid s : String) (now now2 : Nat) (fid fid2 : String) (note : NoteRow)
    (hnid : nid ≠ "") (hs : s ≠ "") (hn : findNote db nid = some note) :
    (∀ lv, lastVersionDesc db nid = some lv →
      lv.delta = submittedDelta st sid s →
      yjs_update db st sid [("note_id", .str nid), ("update", .str s)] now fid =
        (db, [yjsBroadcast nid s sid])) ∧
    ((∀ v ∈ versionsOf db nid, v.timestamp < now) →
      ((yjs_update
          (yjs_update db st sid [("note_id", .str nid), ("update", .str s)] now fid).1
          st sid [("note_id", .str nid), ("update", .str s)] now2 fid2).1.versions.length
        ≤ db.versions.length + 1)) := by
  constructor
  · intro lv hlast hdelta
    rw [yjs_update_run db st sid nid s now fid note hnid hs hn, hlast]
    have hbeq : DeltaText.beq lv.delta (submittedDelta st sid s) = true := by
      rw [hdelta]; exact DeltaText.beq_self _
    dsimp only
    rw [if_pos hbeq]
  · intro hts
    rw [yjs_update_run db st sid nid s now fid note hnid hs hn]
    have happend : ∀ fidx,
        (yjs_update { db with versions := db.versions ++ [newYjsRecord st sid nid s now fidx] }
          st sid [("note_id", .str nid), ("update", .str s)] now2 fid2).1
        = { db with versions := db.versions ++ [newYjsRecord st sid nid s now fidx] } := by
      intro fidx
      have hn2 : findNote { db with
          versions := db.versions ++ [newYjsRecord st sid nid s now fidx] } nid
          = some note := hn
      rw [yjs_update_run _ st sid nid s now2 fid2 note hnid hs hn2]
      rw [lastVersionDesc_append db nid _ rfl hts]
      have hbeq : DeltaText.beq (newYjsRecord st sid nid s now fidx).delta
          (submittedDelta st sid s) = true := DeltaText.beq_self _
      dsimp only
      rw [if_pos hbeq]
    cases hl : lastVersionDesc db nid with
    | none =>
      dsimp only
      rw [happend fid]
      simp
    | some lv =>
      dsimp only
      by_cases hbeq : DeltaText.beq lv.delta (submittedDelta st sid s) = true
      · rw [if_pos hbeq]
        dsimp only
        rw [yjs_update_run db st sid nid s now2 fid2 note hnid hs hn, hl]
        dsimp only
        rw [if_pos hbeq]
        simp
      · rw [if_neg hbeq]
        dsimp only
        rw [happend fid]
        simp

/-- Witness for C2: on `dbC2`, whose log tail is exactly the delta an
anonymous submission of `"X"` produces, the handler relays without
persisting; and a double submission grows the log by at most one. -/
theorem yjs_duplicate_tail_skips_persist_witness :
    yjs_update dbC2 SioState.init "s1" [("note_id", .str "n1"), ("update", .str "X")] 7 "f1" =
      (dbC2, [yjsBroadcast "n1" "X" "s1"]) ∧
    (yjs_update
        (yjs_update dbC2 SioState.init "s1"
          [("note_id", .str "n1"), ("update", .str "X")] 7 "f1").1
        SioState.init "s1" [("note_id", .str "n1"), ("update", .str "X")] 8 "f2").1.versions.length
      ≤ dbC2.versions.length + 1 := by
  have h := yjs_duplicate_tail_skips_persist dbC2 SioState.init "s1" "n1" "X" 7 8 "f1" "f2"
    { id := "n1", title := "T", content := .invalid "", created_at := 0, updated_at := 0 }
    (by decide) (by decide) rfl
  refine ⟨?_, h.2 (by decide)⟩
  exact h.1
    ({ id := "v1", note_id := "n1", user_id := "unknown",
       delta := .json (.obj [("kind", .str "yjs_update"), ("update", .str "X"),
                             ("user_name", .str "unknown")]),
       timestamp := 1 })
    rfl rfl

/-- C4 (corrected): a submission with no `update` key (or empty data) is
dropped silently — nothing is emitted, persisted or broadcast (the claim
expected an error emit here); a present but non-string or empty `update`
yields an error to the submitter only with no persistence and no
broadcast; a missing target document likewise yields an error to the
submitter only. -/
theorem yjs_update_rejects_malformed (db : Db) (st : SioState) (sid : String)
    (data : List (String × Json)) (now : Nat) (fid : String) :
    ((data.isEmpty || !hasKey data "update") = true →
      yjs_update db st sid data now fid = (db, [])) ∧
    (∀ u, (data.isEmpty || !hasKey data "update") = false →
      optTruthy (resolveNoteId st sid data) = true →
      dGet data "update" = some u → (∀ t, u = .str t → t = "") →
      yjs_update db st sid data now fid =
        (db, [⟨"error", errPayload "Invalid yjs update payload", .toSid sid⟩])) ∧
    (∀ nid2, (data.isEmpty || !hasKey data "update") = false →
      resolveNoteId st sid data = some (.str nid2) → nid2 ≠ "" →
      (∃ t, dGet data "update" = some (.str t) ∧ t ≠ "") →
      findNote db nid2 = none →
      yjs_update db st sid data now fid =
        (db, [⟨"error", errPayload "Note not found", .toSid sid⟩])) := by
  refine ⟨?_, ?_, ?_⟩
  · intro h
    simp [yjs_update, h]
  · intro u hg ht hu hstr
    simp only [yjs_update, hg, Bool.false_eq_true, if_false, ht, Bool.not_true, hu]
    cases u with
    | str t =>
      have := hstr t rfl
      subst this
      rfl
    | null => rfl
    | bool b => rfl
    | num n => rfl
    | arr l => rfl
    | obj l => rfl
  · intro nid2 hg hres hnid2 hupd hfn
    obtain ⟨t, hu, hts⟩ := hupd
    have htr : optTruthy (resolveNoteId st sid data) = true := by
      rw [hres]
      simp [optTruthy, Json.truthy, hnid2]
    simp only [yjs_update, hg, Bool.false_eq_true, if_false, htr, Bool.not_true, hu,
      hres, hfn]
    simp [hts]
    intro hfalse
    exfalso
    simp [optTruthy, Json.truthy, hnid2] at hfalse

/-- Counterexample for C4: a submission whose `update` field is absent is
ignored without any emit at all, although the claim requires an error
message to the submitting session. -/
theorem yjs_absent_update_silent_cex :
    yjs_update cexDb SioState.init "s1" [("note_id", .str "n1")] 0 "f1" = (cexDb, []) ∧
    hasKey [("note_id", Json.str "n1")] "update" = false :=
  ⟨rfl, rfl⟩

/-- Witness for C4 (amended): empty data is dropped silently; a numeric
`update` draws the invalid-payload error to the submitter only; an unknown
target note draws the not-found error to the submitter only. -/
theorem yjs_update_rejects_malformed_witness :
    yjs_update cexDb SioState.init "s1" ([] : List (String × Json)) 0 "f" = (cexDb, []) ∧
    yjs_update cexDb SioState.init "s1" [("note_id", .str "n1"), ("update", .num 5)] 0 "f" =
      (cexDb, [⟨"error", errPayload "Invalid yjs update payload", .toSid "s1"⟩]) ∧
    yjs_update cexDb SioState.init "s1" [("note_id", .str "nX"), ("update", .str "ZZ")] 0 "f" =
      (cexDb, [⟨"error", errPayload "Note not found", .toSid "s1"⟩]) := by
  refine ⟨?_, ?_, ?_⟩
  · exact (yjs_update_rejects_malformed cexDb SioState.init "s1" [] 0 "f").1 rfl
  · exact (yjs_update_rejects_malformed cexDb SioState.init "s1"
      [("note_id", .str "n1"), ("update", .num 5)] 0 "f").2.1 (.num 5) rfl rfl rfl
      (fun t ht => nomatch ht)
  · exact (yjs_update_rejects_malformed cexDb SioState.init "s1"
      [("note_id", .str "nX"), ("update", .str "ZZ")] 0 "f").2.2 "nX" rfl rfl
      (by decide) ⟨"ZZ", rfl, by decide⟩ rfl

/-- Reduction of `join_note` on well-formed fields with a verified token:
the state effect is `applyJoin` regardless of note existence. -/
theorem join_note_state_run (verify : String → Option (String × String)) (db : Db)
    (st : SioState) (sid nid tok uid email : String)
    (hnid : nid ≠ "") (htok : tok ≠ "") (hv : verify tok = some (uid, email)) :
    (join_note verify db st sid (some nid) (some tok)).1 =
      applyJoin st sid nid uid email := by
  unfold join_note
  dsimp only
  rw [if_neg (by simp [hnid, htok]), hv]
  cases findNote db nid <;> rfl

/-- Reduction of the emitted events of `join_note` on well-formed fields
with a verified token and an existing note: onboarding then peer
notification. -/
theorem join_note_events_run (verify : String → Option (String × String)) (db : Db)
    (st : SioState) (sid nid tok uid email : String) (note : NoteRow)
    (hnid : nid ≠ "") (htok : tok ≠ "") (hv : verify tok = some (uid, email))
    (hn : findNote db nid = some note) :
    (join_note verify db st sid (some nid) (some tok)).2.map (fun e => e.event) =
      ["load_note", "user_joined"] := by
  unfold join_note
  dsimp only
  rw [if_neg (by simp [hnid, htok]), hv, hn]
  rfl

/-- C5 (amended): every room broadcast produced by the update handler or
the join handler excludes the originating connection via `skip_sid`; the
leave broadcast of the disconnect handler is emitted to the room with no
`skip_sid` at all (the claim expected the same exclusion there). -/
theorem broadcast_exclusion (verify : String → Option (String × String)) (db : Db)
    (st : SioState) (sid : String) (note_id? token? : Option String)
    (data : List (String × Json)) (now : Nat) (fid : String) :
    (yjs_update db st sid data now fid).2.all (roomSkipOk (some sid)) = true ∧
    (join_note verify db st sid note_id? token?).2.all (roomSkipOk (some sid)) = true ∧
    (disconnect st sid).2.all (roomSkipOk none) = true := by
  refine ⟨?_, ?_, ?_⟩
  · unfold yjs_update
    by_cases hg : (data.isEmpty || !hasKey data "update") = true
    · simp [hg]
    · have hg2 : (data.isEmpty || !hasKey data "update") = false := by
        revert hg
        cases data.isEmpty || !hasKey data "update" <;> simp
      simp only [hg2, Bool.false_eq_true, if_false]
      cases hres : resolveNoteId st sid data with
      | none => simp [optTruthy, roomSkipOk]
      | some j =>
        by_cases hjt : j.truthy = true
        · simp only [optTruthy, hjt, Bool.not_true, Bool.false_eq_true, if_false]
          cases hu : dGet data "update" with
          | none => simp [roomSkipOk]
          | some u =>
            cases u with
            | str t =>
              by_cases hte : t = ""
              · simp [hte, roomSkipOk]
              · simp only [hte, if_false]
                cases j with
                | str nid2 =>
                  cases hfn : findNote db nid2 with
                  | none => simp [hfn, roomSkipOk]
                  | some note2 =>
                    cases hlv : lastVersionDesc db nid2 with
                    | none => simp [hfn, hlv, roomSkipOk]
                    | some lv =>
                      by_cases hbeq :
                          DeltaText.beq lv.delta (submittedDelta st sid t) = true <;>
                        simp [hfn, hlv, hbeq, roomSkipOk]
                | null => simp [roomSkipOk]
                | bool b => simp [roomSkipOk]
                | num n => simp [roomSkipOk]
                | arr l => simp [roomSkipOk]
                | obj l => simp [roomSkipOk]
            | null => simp [roomSkipOk]
            | bool b => simp [roomSkipOk]
            | num n => simp [roomSkipOk]
            | arr l => simp [roomSkipOk]
            | obj l => simp [roomSkipOk]
        · have hjf : j.truthy = false := by
            revert hjt
            cases j.truthy <;> simp
          simp [optTruthy, hjf, roomSkipOk]
  · unfold join_note
    iterate 8 all_goals try (first | split | split_ifs)
    all_goals simp [roomSkipOk]
  · unfold disconnect
    cases hn : alGet st.sid_to_note sid with
    | none => simp [roomSkipOk]
    | some nid =>
      cases hu : alGet st.sid_to_user sid with
      | none => simp [roomSkipOk]
      | some uid =>
        by_cases hguard : (nid = "" ∨ uid = "" ∨ alGet st.active_users nid = none)
        · simp [hguard, roomSkipOk]
        · by_cases hdisc : setDiscard ((alGet st.active_users nid).getD []) uid = []
          · simp [hguard, hdisc, roomSkipOk]
          · simp [hguard, hdisc, roomSkipOk]

/-- Counterexample for C5: with two principals in note `"n1"`, the
disconnect of `"s1"` emits `user_left` to the room with no `skip_sid`, and
the recipient set computed from the room membership in force at emit time
(python-socketio removes the closing sid from rooms only after the
handler) still contains the originating connection `"s1"`. -/
theorem user_left_includes_origin_cex :
    (disconnect twoUserState "s1").2.map (fun e => e.target) = [.room "note_n1" none] ∧
    (disconnect twoUserState "s1").2.map (fun e => recipients twoUserState.rooms e) =
      [["s1", "s2"]] :=
  ⟨rfl, rfl⟩

/-- C6 (corrected): the join handler performs no already-bound check — a
second join on a bound connection is processed like a fresh join: it
rebinds the connection to the new document and principal, leaves the old
document's member set untouched, and emits the normal onboarding events
rather than any error. -/
theorem join_rebinds_without_error (verify : String → Option (String × String))
    (db : Db) (st : SioState) (sid old_nid nid tok uid email : String)
    (note : NoteRow)
    (hbound : alGet st.sid_to_note sid = some old_nid)
    (hnid : nid ≠ "") (htok : tok ≠ "")
    (hv : verify tok = some (uid, email))
    (hn : findNote db nid = some note) :
    alGet (join_note verify db st sid (some nid) (some tok)).1.sid_to_note sid
      = some nid ∧
    alGet (join_note verify db st sid (some nid) (some tok)).1.sid_to_user sid
      = some uid ∧
    (old_nid ≠ nid →
      alGet (join_note verify db st sid (some nid) (some tok)).1.active_users old_nid
        = alGet st.active_users old_nid) ∧
    (join_note verify db st sid (some nid) (some tok)).2.map (fun e => e.event)
      = ["load_note", "user_joined"] := by
  have hst := join_note_state_run verify db st sid nid tok uid email hnid htok hv
  refine ⟨?_, ?_, ?_, join_note_events_run verify db st sid nid tok uid email note
    hnid htok hv hn⟩
  · rw [hst]
    show alGet (alSet st.sid_to_note sid nid) sid = some nid
    rw [alGet_alSet]
    simp
  · rw [hst]
    show alGet (alSet st.sid_to_user sid uid) sid = some uid
    rw [alGet_alSet]
    simp
  · intro hne
    rw [hst]
    show alGet (alSet st.active_users nid _) old_nid = alGet st.active_users old_nid
    rw [alGet_alSet, if_neg hne]

/-- Counterexample for C6: connection `"s1"` is bound to `"n1"`, yet a
second join towards `"n2"` is accepted — it emits the normal onboarding
events (no `AlreadyBound` error), rebinds the connection, and leaves the
stale membership of `"n1"` behind. -/
theorem join_second_attempt_not_rejected_cex :
    alGet st6.sid_to_note "s1" = some "n1" ∧
    (join_note exVerify dbC6 st6 "s1" (some "n2") (some "t1")).2.map (fun e => e.event)
      = ["load_note", "user_joined"] ∧
    alGet (join_note exVerify dbC6 st6 "s1" (some "n2") (some "t1")).1.sid_to_note "s1"
      = some "n2" ∧
    alGet (join_note exVerify dbC6 st6 "s1" (some "n2") (some "t1")).1.active_users "n1"
      = some ["u1"] :=
  ⟨rfl, rfl, rfl, rfl⟩

/-- Witness for C6 (amended): applied to the bound connection `"s1"` of
`st6` rejoining towards `"n2"`. -/
theorem join_rebinds_without_error_witness :
    alGet (join_note exVerify dbC6 st6 "s1" (some "n2") (some "t1")).1.sid_to_note "s1"
      = some "n2" ∧
    alGet (join_note exVerify dbC6 st6 "s1" (some "n2") (some "t1")).1.sid_to_user "s1"
      = some "u1" ∧
    alGet (join_note exVerify dbC6 st6 "s1" (some "n2") (some "t1")).1.active_users "n1"
      = alGet st6.active_users "n1" := by
  have h := join_rebinds_without_error exVerify dbC6 st6 "s1" "n1" "n2" "t1" "u1"
    "u1@example.com"
    ({ id := "n2", title := "B", content := .invalid "", created_at := 0,
       updated_at := 0 })
    rfl (by decide) (by decide) rfl rfl
  exact ⟨h.1, h.2.1, h.2.2.1 (by decide)⟩

/-- Live bound connections after popping one sid, for any registry and
room contents: exactly the bindings of the remaining sids. -/
theorem liveBound_pop_iff (st : SioState) (sid : String)
    (au2 : List (String × List String)) (rooms2 : List (String × List String))
    (nid2 uid2 : String) :
    liveBound (popState st sid au2 rooms2) nid2 uid2 = true ↔
      ∃ x, x ≠ sid ∧ alGet st.sid_to_note x = some nid2 ∧
        alGet st.sid_to_user x = some uid2 := by
  rw [liveBound_iff]
  constructor
  · rintro ⟨x, h1, h2⟩
    rw [show (popState st sid au2 rooms2).sid_to_note = alRemove st.sid_to_note sid
      from rfl, alGet_alRemove] at h1
    rw [show (popState st sid au2 rooms2).sid_to_user = alRemove st.sid_to_user sid
      from rfl, alGet_alRemove] at h2
    by_cases hx : x = sid
    · rw [if_pos hx] at h1
      exact absurd h1 (by simp)
    · rw [if_neg hx] at h1 h2
      exact ⟨x, hx, h1, h2⟩
  · rintro ⟨x, hx, h1, h2⟩
    refine ⟨x, ?_, ?_⟩
    · rw [show (popState st sid au2 rooms2).sid_to_note = alRemove st.sid_to_note sid
        from rfl, alGet_alRemove, if_neg hx]
      exact h1
    · rw [show (popState st sid au2 rooms2).sid_to_user = alRemove st.sid_to_user sid
        from rfl, alGet_alRemove, if_neg hx]
      exact h2

/-- The empty realtime state satisfies the induction invariant. -/
theorem stInv_init : stInv SioState.init := by
  refine ⟨⟨?_, ?_⟩, ?_, ?_, ?_⟩
  · intro nid members h
    exact absurd h (by simp [SioState.init, alGet])
  · intro nid _ uid
    rfl
  · intro sid nid h
    exact absurd h (by simp [SioState.init, alGet])
  · intro sid uid h
    exact absurd h (by simp [SioState.init, alGet])
  · intro s1 s2 nid uid h
    exact absurd h (by simp [SioState.init, alGet])

/-- Live bound connections after a fresh join: the new binding or an old
one. -/
theorem liveBound_applyJoin (st : SioState) (sid nid uid email : String)
    (hfresh : alGet st.sid_to_note sid = none) (nid2 uid2 : String) :
    liveBound (applyJoin st sid nid uid email) nid2 uid2 = true ↔
      ((nid2 = nid ∧ uid2 = uid) ∨ liveBound st nid2 uid2 = true) := by
  have hpn : (applyJoin st sid nid uid email).sid_to_note
      = alSet st.sid_to_note sid nid := rfl
  have hpu : (applyJoin st sid nid uid email).sid_to_user
      = alSet st.sid_to_user sid uid := rfl
  rw [liveBound_iff, liveBound_iff]
  constructor
  · rintro ⟨x, h1, h2⟩
    rw [hpn, alGet_alSet] at h1
    rw [hpu, alGet_alSet] at h2
    by_cases hx : x = sid
    · rw [if_pos hx] at h1 h2
      exact Or.inl ⟨(Option.some.inj h1).symm, (Option.some.inj h2).symm⟩
    · rw [if_neg hx] at h1 h2
      exact Or.inr ⟨x, h1, h2⟩
  · rintro (⟨rfl, rfl⟩ | ⟨x, h1, h2⟩)
    · refine ⟨sid, ?_, ?_⟩
      · rw [hpn, alGet_alSet]
        simp
      · rw [hpu, alGet_alSet]
        simp
    · have hx : x ≠ sid := by
        rintro rfl
        rw [hfresh] at h1
        exact absurd h1 (by simp)
      refine ⟨x, ?_, ?_⟩
      · rw [hpn, alGet_alSet, if_neg hx]
        exact h1
      · rw [hpu, alGet_alSet, if_neg hx]
        exact h2

/-- The induction invariant is preserved by a join that satisfies the
wellformedness provisos. -/
theorem stInv_applyJoin (st : SioState) (sid nid uid email : String)
    (hinv : stInv st) (hfresh : alGet st.sid_to_note sid = none)
    (hnid : nid ≠ "") (huid : uid ≠ "") (hnl : liveBound st nid uid = false) :
    stInv (applyJoin st sid nid uid email) := by
  obtain ⟨⟨hreg1, hreg2⟩, hmap1, hmap2, hinj⟩ := hinv
  have hpa : (applyJoin st sid nid uid email).active_users
      = alSet st.active_users nid
          (setAdd ((alGet st.active_users nid).getD []) uid) := rfl
  have hpn : (applyJoin st sid nid uid email).sid_to_note
      = alSet st.sid_to_note sid nid := rfl
  have hpu : (applyJoin st sid nid uid email).sid_to_user
      = alSet st.sid_to_user sid uid := rfl
  have htr := liveBound_applyJoin st sid nid uid email hfresh
  refine ⟨⟨?_, ?_⟩, ?_, ?_, ?_⟩
  · intro nid2 members2 hmem
    rw [hpa, alGet_alSet] at hmem
    by_cases h2 : nid2 = nid
    · rw [if_pos h2] at hmem
      have hm2 : members2 = setAdd ((alGet st.active_users nid).getD []) uid :=
        (Option.some.inj hmem).symm
      subst h2
      subst hm2
      refine ⟨setAdd_ne_nil _ _, fun uid2 => ?_⟩
      rw [mem_setAdd, htr]
      constructor
      · rintro (rfl | hm)
        · exact Or.inl ⟨rfl, rfl⟩
        · cases hau : alGet st.active_users nid2 with
          | none =>
            rw [hau] at hm
            exact absurd hm (by simp)
          | some ms =>
            rw [hau] at hm
            exact Or.inr (((hreg1 nid2 ms hau).2 uid2).mp (by simpa using hm))
      · rintro (⟨_, rfl⟩ | hl)
        · exact Or.inl rfl
        · right
          cases hau : alGet st.active_users nid2 with
          | none =>
            rw [hreg2 nid2 hau uid2] at hl
            exact absurd hl (by simp)
          | some ms =>
            simpa using ((hreg1 nid2 ms hau).2 uid2).mpr hl
    · rw [if_neg h2] at hmem
      obtain ⟨hne, hiff⟩ := hreg1 nid2 members2 hmem
      refine ⟨hne, fun uid2 => ?_⟩
      rw [htr]
      constructor
      · intro hm
        exact Or.inr ((hiff uid2).mp hm)
      · rintro (⟨h2x, _⟩ | hl)
        · exact absurd h2x h2
        · exact (hiff uid2).mpr hl
  · intro nid2 hnone uid2
    rw [hpa, alGet_alSet] at hnone
    by_cases h2 : nid2 = nid
    · rw [if_pos h2] at hnone
      exact absurd hnone (by simp)
    · rw [if_neg h2] at hnone
      have hnot : ¬ liveBound (applyJoin st sid nid uid email) nid2 uid2 = true := by
        rw [htr]
        rintro (⟨h2x, _⟩ | hl)
        · exact h2 h2x
        · rw [hreg2 nid2 hnone uid2] at hl
          exact absurd hl (by simp)
      cases h : liveBound (applyJoin st sid nid uid email) nid2 uid2
      · rfl
      · exact absurd h hnot
  · intro x nid2 hx
    rw [hpn, alGet_alSet] at hx
    by_cases hxs : x = sid
    · rw [if_pos hxs] at hx
      have : nid = nid2 := Option.some.inj hx
      subst this
      refine ⟨hnid, uid, ?_, huid⟩
      rw [hpu, alGet_alSet, if_pos hxs]
    · rw [if_neg hxs] at hx
      obtain ⟨hn2, uid2, hu2, hu2ne⟩ := hmap1 x nid2 hx
      refine ⟨hn2, uid2, ?_, hu2ne⟩
      rw [hpu, alGet_alSet, if_neg hxs]
      exact hu2
  · intro x uid2 hx
    rw [hpu, alGet_alSet] at hx
    by_cases hxs : x = sid
    · refine ⟨nid, ?_⟩
      rw [hpn, alGet_alSet, if_pos hxs]
    · rw [if_neg hxs] at hx
      obtain ⟨nid2, h⟩ := hmap2 x uid2 hx
      refine ⟨nid2, ?_⟩
      rw [hpn, alGet_alSet, if_neg hxs]
      exact h
  · intro s1 s2 nid2 uid2 h1n h1u h2n h2u
    rw [hpn, alGet_alSet] at h1n h2n
    rw [hpu, alGet_alSet] at h1u h2u
    by_cases hs1 : s1 = sid <;> by_cases hs2 : s2 = sid
    · rw [hs1, hs2]
    · exfalso
      rw [if_pos hs1] at h1n h1u
      rw [if_neg hs2] at h2n h2u
      have hn2 : nid2 = nid := (Option.some.inj h1n).symm
      have hu2 : uid2 = uid := (Option.some.inj h1u).symm
      subst hn2
      subst hu2
      have : liveBound st nid2 uid2 = true := (liveBound_iff st _ _).mpr ⟨s2, h2n, h2u⟩
      rw [hnl] at this
      exact absurd this (by simp)
    · exfalso
      rw [if_pos hs2] at h2n h2u
      rw [if_neg hs1] at h1n h1u
      have hn2 : nid2 = nid := (Option.some.inj h2n).symm
      have hu2 : uid2 = uid := (Option.some.inj h2u).symm
      subst hn2
      subst hu2
      have : liveBound st nid2 uid2 = true := (liveBound_iff st _ _).mpr ⟨s1, h1n, h1u⟩
      rw [hnl] at this
      exact absurd this (by simp)
    · rw [if_neg hs1] at h1n h1u
      rw [if_neg hs2] at h2n h2u
      exact hinj s1 s2 nid2 uid2 h1n h1u h2n h2u

/-- The session-map invariants survive popping one sid, for any registry
contents. -/
theorem stInv_maps_pop (st : SioState) (sid : String)
    (au2 rooms2 : List (String × List String)) (hinv : stInv st) :
    (∀ x nid2, alGet (popState st sid au2 rooms2).sid_to_note x = some nid2 →
        nid2 ≠ "" ∧ ∃ uid2, alGet (popState st sid au2 rooms2).sid_to_user x = some uid2 ∧
          uid2 ≠ "") ∧
    (∀ x uid2, alGet (popState st sid au2 rooms2).sid_to_user x = some uid2 →
        ∃ nid2, alGet (popState st sid au2 rooms2).sid_to_note x = some nid2) ∧
    (∀ s1 s2 nid2 uid2,
        alGet (popState st sid au2 rooms2).sid_to_note s1 = some nid2 →
        alGet (popState st sid au2 rooms2).sid_to_user s1 = some uid2 →
        alGet (popState st sid au2 rooms2).sid_to_note s2 = some nid2 →
        alGet (popState st sid au2 rooms2).sid_to_user s2 = some uid2 → s1 = s2) := by
  obtain ⟨_, hmap1, hmap2, hinj⟩ := hinv
  have hpn : (popState st sid au2 rooms2).sid_to_note = alRemove st.sid_to_note sid := rfl
  have hpu : (popState st sid au2 rooms2).sid_to_user = alRemove st.sid_to_user sid := rfl
  refine ⟨?_, ?_, ?_⟩
  · intro x nid2 hx
    rw [hpn, alGet_alRemove] at hx
    by_cases hxs : x = sid
    · rw [if_pos hxs] at hx
      exact absurd hx (by simp)
    · rw [if_neg hxs] at hx
      obtain ⟨hn2, uid2, hu2, hu2ne⟩ := hmap1 x nid2 hx
      refine ⟨hn2, uid2, ?_, hu2ne⟩
      rw [hpu, alGet_alRemove, if_neg hxs]
      exact hu2
  · intro x uid2 hx
    rw [hpu, alGet_alRemove] at hx
    by_cases hxs : x = sid
    · rw [if_pos hxs] at hx
      exact absurd hx (by simp)
    · rw [if_neg hxs] at hx
      obtain ⟨nid2, h⟩ := hmap2 x uid2 hx
      refine ⟨nid2, ?_⟩
      rw [hpn, alGet_alRemove, if_neg hxs]
      exact h
  · intro s1 s2 nid2 uid2 h1n h1u h2n h2u
    rw [hpn, alGet_alRemove] at h1n h2n
    rw [hpu, alGet_alRemove] at h1u h2u
    by_cases hs1 : s1 = sid
    · rw [if_pos hs1] at h1n
      exact absurd h1n (by simp)
    · by_cases hs2 : s2 = sid
      · rw [if_pos hs2] at h2n
        exact absurd h2n (by simp)
      · rw [if_neg hs1] at h1n h1u
        rw [if_neg hs2] at h2n h2u
        exact hinj s1 s2 nid2 uid2 h1n h1u h2n h2u

/-- The induction invariant is preserved by any disconnect. -/
theorem stInv_disconnect (st : SioState) (sid : String) (hinv : stInv st) :
    stInv (disconnect st sid).1 := by
  obtain ⟨⟨hreg1, hreg2⟩, hmap1, hmap2, hinj⟩ := hinv
  have hroomsF : ∀ (r : List (String × List String)), True := fun _ => trivial
  cases hn : alGet st.sid_to_note sid with
  | none =>
    have hu : alGet st.sid_to_user sid = none := by
      cases hu2 : alGet st.sid_to_user sid with
      | none => rfl
      | some uid =>
        obtain ⟨nid, h⟩ := hmap2 sid uid hu2
        rw [hn] at h
        exact absurd h (by simp)
    have hstate : (disconnect st sid).1 =
        popState st sid st.active_users
          (st.rooms.map (fun p => (p.1, p.2.filter (fun x => x != sid)))) := by
      unfold disconnect
      rw [hn]
      rfl
    rw [hstate]
    have htr : ∀ nid2 uid2,
        liveBound (popState st sid st.active_users
          (st.rooms.map (fun p => (p.1, p.2.filter (fun x => x != sid))))) nid2 uid2 = true ↔
        liveBound st nid2 uid2 = true := by
      intro nid2 uid2
      rw [liveBound_pop_iff, liveBound_iff]
      constructor
      · rintro ⟨x, _, h1, h2⟩
        exact ⟨x, h1, h2⟩
      · rintro ⟨x, h1, h2⟩
        refine ⟨x, ?_, h1, h2⟩
        rintro rfl
        rw [hn] at h1
        exact absurd h1 (by simp)
    obtain ⟨hm1, hm2, hm3⟩ := stInv_maps_pop st sid st.active_users
      (st.rooms.map (fun p => (p.1, p.2.filter (fun x => x != sid))))
      ⟨⟨hreg1, hreg2⟩, hmap1, hmap2, hinj⟩
    refine ⟨⟨?_, ?_⟩, hm1, hm2, hm3⟩
    · intro nid2 ms2 hmem
      obtain ⟨hne, hiff⟩ := hreg1 nid2 ms2 hmem
      refine ⟨hne, fun uid2 => ?_⟩
      rw [htr]
      exact hiff uid2
    · intro nid2 hnone uid2
      cases h : liveBound (popState st sid st.active_users
          (st.rooms.map (fun p => (p.1, p.2.filter (fun x => x != sid))))) nid2 uid2
      · rfl
      · have := (htr nid2 uid2).mp h
        rw [hreg2 nid2 hnone uid2] at this
        exact absurd this (by simp)
  | some nid =>
    obtain ⟨hnid_ne, uid0, hu0, huid_ne⟩ := hmap1 sid nid hn
    have hlive : liveBound st nid uid0 = true := (liveBound_iff st nid uid0).mpr ⟨sid, hn, hu0⟩
    have hau : ∃ members, alGet st.active_users nid = some members := by
      cases hau2 : alGet st.active_users nid with
      | none =>
        rw [hreg2 nid hau2 uid0] at hlive
        exact absurd hlive (by simp)
      | some ms => exact ⟨ms, rfl⟩
    obtain ⟨members, haum⟩ := hau
    obtain ⟨hmne, hmiff⟩ := hreg1 nid members haum
    have hmem_uid : uid0 ∈ members := (hmiff uid0).mpr hlive
    have hgd : (alGet st.active_users nid).getD [] = members := by rw [haum]; rfl
    have hguard : ¬ (nid = "" ∨ uid0 = "" ∨ alGet st.active_users nid = none) := by
      rintro (h | h | h)
      · exact hnid_ne h
      · exact huid_ne h
      · rw [haum] at h
        exact absurd h (by simp)
    by_cases hde : setDiscard ((alGet st.active_users nid).getD []) uid0 = []
    · have hstate : (disconnect st sid).1 =
          popState st sid (alRemove st.active_users nid)
            (st.rooms.map (fun p => (p.1, p.2.filter (fun x => x != sid)))) := by
        unfold disconnect
        rw [hn, hu0]
        dsimp only
        rw [if_neg hguard, if_pos hde]
        rfl
      rw [hstate]
      have hde2 : setDiscard members uid0 = [] := by rw [← hgd]; exact hde
      obtain ⟨hm1, hm2, hm3⟩ := stInv_maps_pop st sid (alRemove st.active_users nid)
        (st.rooms.map (fun p => (p.1, p.2.filter (fun x => x != sid))))
        ⟨⟨hreg1, hreg2⟩, hmap1, hmap2, hinj⟩
      refine ⟨⟨?_, ?_⟩, hm1, hm2, hm3⟩
      · intro nid2 ms2 hmem
        rw [show (popState st sid (alRemove st.active_users nid)
            (st.rooms.map (fun p => (p.1, p.2.filter (fun x => x != sid))))).active_users
            = alRemove st.active_users nid from rfl, alGet_alRemove] at hmem
        by_cases h2 : nid2 = nid
        · rw [if_pos h2] at hmem
          exact absurd hmem (by simp)
        · rw [if_neg h2] at hmem
          obtain ⟨hne, hiff⟩ := hreg1 nid2 ms2 hmem
          refine ⟨hne, fun uid2 => ?_⟩
          rw [liveBound_pop_iff]
          constructor
          · intro hm
            obtain ⟨x, h1x, h2x⟩ := (liveBound_iff st nid2 uid2).mp ((hiff uid2).mp hm)
            refine ⟨x, ?_, h1x, h2x⟩
            rintro rfl
            rw [hn] at h1x
            exact h2 (Option.some.inj h1x).symm
          · rintro ⟨x, hx, h1x, h2x⟩
            exact (hiff uid2).mpr ((liveBound_iff st nid2 uid2).mpr ⟨x, h1x, h2x⟩)
      · intro nid2 hnone uid2
        rw [show (popState st sid (alRemove st.active_users nid)
            (st.rooms.map (fun p => (p.1, p.2.filter (fun x => x != sid))))).active_users
            = alRemove st.active_users nid from rfl, alGet_alRemove] at hnone
        have hnot : ¬ liveBound (popState st sid (alRemove st.active_users nid)
            (st.rooms.map (fun p => (p.1, p.2.filter (fun x => x != sid))))) nid2 uid2
            = true := by
          rw [liveBound_pop_iff]
          rintro ⟨x, hx, h1x, h2x⟩
          by_cases h2 : nid2 = nid
          · subst h2
            have hm : uid2 ∈ members := (hmiff uid2).mpr
              ((liveBound_iff st nid2 uid2).mpr ⟨x, h1x, h2x⟩)
            by_cases hu2 : uid2 = uid0
            · subst hu2
              exact hx (hinj x sid nid2 uid2 h1x h2x hn hu0)
            · have : uid2 ∈ setDiscard members uid0 := (mem_setDiscard _ _ _).mpr ⟨hm, hu2⟩
              rw [hde2] at this
              exact absurd this (by simp)
          · rw [if_neg h2] at hnone
            have := hreg2 nid2 hnone uid2
            rw [(liveBound_iff st nid2 uid2).mpr ⟨x, h1x, h2x⟩] at this
            exact absurd this (by simp)
        cases h : liveBound (popState st sid (alRemove st.active_users nid)
            (st.rooms.map (fun p => (p.1, p.2.filter (fun x => x != sid))))) nid2 uid2
        · rfl
        · exact absurd h hnot
    · have hstate : (disconnect st sid).1 =
          popState st sid
            (alSet st.active_users nid (setDiscard ((alGet st.active_users nid).getD []) uid0))
            (st.rooms.map (fun p => (p.1, p.2.filter (fun x => x != sid)))) := by
        unfold disconnect
        rw [hn, hu0]
        dsimp only
        rw [if_neg hguard, if_neg hde]
        rfl
      rw [hstate]
      have hde2 : setDiscard members uid0 ≠ [] := by
        rw [← hgd]
        exact hde
      obtain ⟨hm1, hm2, hm3⟩ := stInv_maps_pop st sid
        (alSet st.active_users nid (setDiscard ((alGet st.active_users nid).getD []) uid0))
        (st.rooms.map (fun p => (p.1, p.2.filter (fun x => x != sid))))
        ⟨⟨hreg1, hreg2⟩, hmap1, hmap2, hinj⟩
      refine ⟨⟨?_, ?_⟩, hm1, hm2, hm3⟩
      · intro nid2 ms2 hmem
        rw [show (popState st sid
            (alSet st.active_users nid (setDiscard ((alGet st.active_users nid).getD []) uid0))
            (st.rooms.map (fun p => (p.1, p.2.filter (fun x => x != sid))))).active_users
            = alSet st.active_users nid
                (setDiscard ((alGet st.active_users nid).getD []) uid0) from rfl,
          alGet_alSet] at hmem
        by_cases h2 : nid2 = nid
        · rw [if_pos h2] at hmem
          have hms2 : ms2 = setDiscard members uid0 := by
            rw [← hgd]
            exact (Option.some.inj hmem).symm
          subst h2
          subst hms2
          refine ⟨hde2, fun uid2 => ?_⟩
          rw [mem_setDiscard, liveBound_pop_iff]
          constructor
          · rintro ⟨hm, hu2⟩
            obtain ⟨x, h1x, h2x⟩ := (liveBound_iff st nid2 uid2).mp ((hmiff uid2).mp hm)
            refine ⟨x, ?_, h1x, h2x⟩
            rintro rfl
            rw [hu0] at h2x
            exact hu2 (Option.some.inj h2x).symm
          · rintro ⟨x, hx, h1x, h2x⟩
            refine ⟨(hmiff uid2).mpr ((liveBound_iff st nid2 uid2).mpr ⟨x, h1x, h2x⟩), ?_⟩
            rintro rfl
            exact hx (hinj x sid nid2 uid2 h1x h2x hn hu0)
        · rw [if_neg h2] at hmem
          obtain ⟨hne, hiff⟩ := hreg1 nid2 ms2 hmem
          refine ⟨hne, fun uid2 => ?_⟩
          rw [liveBound_pop_iff]
          constructor
          · intro hm
            obtain ⟨x, h1x, h2x⟩ := (liveBound_iff st nid2 uid2).mp ((hiff uid2).mp hm)
            refine ⟨x, ?_, h1x, h2x⟩
            rintro rfl
            rw [hn] at h1x
            exact h2 (Option.some.inj h1x).symm
          · rintro ⟨x, hx, h1x, h2x⟩
            exact (hiff uid2).mpr ((liveBound_iff st nid2 uid2).mpr ⟨x, h1x, h2x⟩)
      · intro nid2 hnone uid2
        rw [show (popState st sid
            (alSet st.active_users nid (setDiscard ((alGet st.active_users nid).getD []) uid0))
            (st.rooms.map (fun p => (p.1, p.2.filter (fun x => x != sid))))).active_users
            = alSet st.active_users nid
                (setDiscard ((alGet st.active_users nid).getD []) uid0) from rfl,
          alGet_alSet] at hnone
        by_cases h2 : nid2 = nid
        · rw [if_pos h2] at hnone
          exact absurd hnone (by simp)
        · rw [if_neg h2] at hnone
          have hnot : ¬ liveBound (popState st sid
              (alSet st.active_users nid (setDiscard ((alGet st.active_users nid).getD []) uid0))
              (st.rooms.map (fun p => (p.1, p.2.filter (fun x => x != sid))))) nid2 uid2
              = true := by
            rw [liveBound_pop_iff]
            rintro ⟨x, hx, h1x, h2x⟩
            have := hreg2 nid2 hnone uid2
            rw [(liveBound_iff st nid2 uid2).mpr ⟨x, h1x, h2x⟩] at this
            exact absurd this (by simp)
          cases h : liveBound (popState st sid
              (alSet st.active_users nid (setDiscard ((alGet st.active_users nid).getD []) uid0))
              (st.rooms.map (fun p => (p.1, p.2.filter (fun x => x != sid))))) nid2 uid2
          · rfl
          · exact absurd h hnot

/-- State effect of a join: either a rejected join that leaves the state
unchanged, or an accepted one that applies `applyJoin`. -/
theorem join_note_state_cases (verify : String → Option (String × String)) (db : Db)
    (st : SioState) (sid : String) (n t : Option String) :
    (join_note verify db st sid n t).1 = st ∨
    ∃ nid tok uid email, n = some nid ∧ t = some tok ∧ nid ≠ "" ∧ tok ≠ "" ∧
      verify tok = some (uid, email) ∧
      (join_note verify db st sid n t).1 = applyJoin st sid nid uid email := by
  cases n with
  | none => exact Or.inl rfl
  | some nid =>
    cases t with
    | none => exact Or.inl rfl
    | some tok =>
      by_cases hg : (nid = "" ∨ tok = "")
      · left
        unfold join_note
        dsimp only
        rw [if_pos hg]
      · cases hv : verify tok with
        | none =>
          left
          unfold join_note
          dsimp only
          rw [if_neg hg, hv]
        | some p =>
          obtain ⟨uid, email⟩ := p
          right
          refine ⟨nid, tok, uid, email, rfl, rfl, fun h => hg (Or.inl h),
            fun h => hg (Or.inr h), hv, ?_⟩
          exact join_note_state_run verify db st sid nid tok uid email
            (fun h => hg (Or.inl h)) (fun h => hg (Or.inr h)) hv

/-- The induction invariant is preserved by every wellformed event. -/
theorem stInv_step (verify : String → Option (String × String)) (db : Db)
    (st : SioState) (e : Ev) (hinv : stInv st) (hok : evOkB verify st e = true) :
    stInv (stepEv verify db st e) := by
  cases e with
  | disc sid => exact stInv_disconnect st sid hinv
  | join sid n t =>
    rcases join_note_state_cases verify db st sid n t with h |
      ⟨nid, tok, uid, email, rfl, rfl, hnid, htok, hv, h⟩
    · rw [show stepEv verify db st (.join sid n t) = (join_note verify db st sid n t).1
        from rfl, h]
      exact hinv
    · rw [show stepEv verify db st (.join sid (some nid) (some tok))
        = (join_note verify db st sid (some nid) (some tok)).1 from rfl, h]
      unfold evOkB at hok
      dsimp only at hok
      rw [if_neg (by rintro (hh | hh); exact hnid hh; exact htok hh), hv] at hok
      rw [Bool.and_eq_true, Bool.and_eq_true] at hok
      obtain ⟨⟨hfresh, huid⟩, hnl⟩ := hok
      rw [decide_eq_true_eq] at hfresh huid
      have hnl2 : liveBound st nid uid = false := by
        cases hlb : liveBound st nid uid
        · rfl
        · rw [hlb] at hnl
          exact absurd hnl (by simp)
      exact stInv_applyJoin st sid nid uid email hinv hfresh hnid huid hnl2

/-- The induction invariant holds after any wellformed event sequence. -/
theorem stInv_runEvs (verify : String → Option (String × String)) (db : Db) :
    ∀ (evs : List Ev) (st : SioState), stInv st →
      traceOkB verify db st evs = true → stInv (runEvs verify db st evs) := by
  intro evs
  induction evs with
  | nil =>
    intro st h _
    exact h
  | cons e rest ih =>
    intro st hinv hok
    rw [show traceOkB verify db st (e :: rest)
      = (evOkB verify st e && traceOkB verify db (stepEv verify db st e) rest) from rfl,
      Bool.and_eq_true] at hok
    exact ih _ (stInv_step verify db st e hinv hok.1) hok.2

/-- Counterexample for C3: principal `"u1"` joins note `"n1"` on two
connections; after only one disconnects, the surviving connection is still
bound to the note but the registry entry is gone, so the member set no
longer equals the set of principals with a live bound connection. -/
theorem active_users_two_tabs_cex :
    alGet twoTabState.sid_to_note "s2" = some "n1" ∧
    alGet twoTabState.sid_to_user "s2" = some "u1" ∧
    alGet twoTabState.active_users "n1" = none :=
  ⟨rfl, rfl, rfl⟩

/-- C3 (amended): provided every accepted join binds a fresh (not yet
bound) connection with a non-empty principal id and no principal ever
holds two simultaneous live connections to the same document, then after
any finite sequence of join and disconnect events the registry entry for a
document exists iff at least one live connection is bound to it, and its
member set equals exactly the principals with a live bound connection. -/
theorem active_users_membership_consistency
    (verify : String → Option (String × String)) (db : Db) (evs : List Ev)
    (hok : traceOkB verify db SioState.init evs = true) :
    registryConsistent (runEvs verify db SioState.init evs) :=
  (stInv_runEvs verify db evs SioState.init stInv_init hok).1

/-- Witness for C3 (amended): the two-principals-then-one-disconnect trace
is wellformed and ends in a consistent registry. -/
theorem active_users_membership_consistency_witness :
    traceOkB exVerify ⟨[], []⟩ SioState.init
      [.join "s1" (some "n1") (some "t1"), .join "s2" (some "n1") (some "t2"),
       .disc "s1"] = true ∧
    registryConsistent (runEvs exVerify ⟨[], []⟩ SioState.init
      [.join "s1" (some "n1") (some "t1"), .join "s2" (some "n1") (some "t2"),
       .disc "s1"]) :=
  ⟨by decide, active_users_membership_consistency exVerify ⟨[], []⟩ _ (by decide)⟩

end CollabEdit
